import Mathlib

/-!
Verification model of the conversation/session orchestrator of the
`automacaopython` repository.

The development shallowly embeds the two implementations of the orchestrator
found in the source:

* `ProductionAgent` (src/agent.py): the in-process agent holding one
  conversation's state (`ProductionAgent.process_input` and its handlers);
* the `/chat` endpoint (src/api.py, `chat_endpoint`) together with the REST
  repository endpoints `delete_order` and `delete_part`.

External collaborators (the LLM intent extractor, the Supabase record store,
the response formatter) are modelled as oracles supplied through an
environment record; every external call the code issues is recorded in an
explicit call trace so that "exactly one mutation call" style properties can
be stated.  Scalar JSON payload values (names, dates, prices) are modelled by
their string representation: the orchestrator only stores and forwards them,
it never computes on them.  Python `None` is modelled by `Option.none`; a
Python statement that would raise (attribute access on `None`, index error)
makes the modelled function return `none`, matching the caller's try/except.
Python's `str.lower` is modelled ASCII-only (`Char.toLower`), which agrees
with the source on every keyword the code matches against.
-/

/-- Lowercase a string character-by-character, as a character list.
Models Python's `str.lower()` (ASCII range; non-ASCII characters are
left unchanged, which agrees with Python on the keyword sets used here). -/
def lowerChars (s : String) : List Char := s.data.map Char.toLower

/-- Boolean prefix test on character lists. -/
def isPrefixChars : List Char → List Char → Bool
  | [], _ => true
  | _ :: _, [] => false
  | a :: as, b :: bs => a == b && isPrefixChars as bs

/-- Boolean occurrence test: does `needle` occur contiguously in the list? -/
def containsSeq (needle : List Char) : List Char → Bool
  | [] => needle.isEmpty
  | c :: rest => isPrefixChars needle (c :: rest) || containsSeq needle rest

/-- Python's `k in msg.lower()`: `k` occurs as a substring of the lowercased
message. -/
def containsSub (msg k : String) : Bool :=
  containsSeq k.data (lowerChars msg)

/-- A part payload as the extractor produces it: a JSON object, modelled as an
association list of string fields. -/
abbrev PartDict := List (String × String)

/-- A scalar-or-parts JSON value inside an order `data` payload.  The only
structured value the orchestrator ever reads out of `data` is the `pecas`
list, so the model distinguishes exactly that shape. -/
inductive FieldVal
  | s (v : String)
  | parts (ps : List PartDict)
deriving DecidableEq, Repr

/-- An order `data` payload: a JSON object, modelled as an association list. -/
abbrev Dict := List (String × FieldVal)

/-- Lookup in a JSON-object association list (Python `d.get(k)`). -/
def dictGet (d : Dict) (k : String) : Option FieldVal :=
  (d.find? (fun kv => kv.1 == k)).map (fun kv => kv.2)

/-- Python dict assignment `d[k] = v`: replace the value in place if the key
exists, append otherwise. -/
def dictSet (d : Dict) (k : String) (v : FieldVal) : Dict :=
  if d.any (fun kv => kv.1 == k) then
    d.map (fun kv => if kv.1 == k then (k, v) else kv)
  else d ++ [(k, v)]

/-- Python dict assignment on a part payload. -/
def partSet (d : PartDict) (k v : String) : PartDict :=
  if d.any (fun kv => kv.1 == k) then
    d.map (fun kv => if kv.1 == k then (k, v) else kv)
  else d ++ [(k, v)]

/-- Lookup in a part payload. -/
def partGet (d : PartDict) (k : String) : Option String :=
  (d.find? (fun kv => kv.1 == k)).map (fun kv => kv.2)

/-- Python truthiness of an optional JSON value: `None`, `""` and `[]` are
falsy. -/
def FieldVal.isTruthy : Option FieldVal → Bool
  | none => false
  | some (FieldVal.s v) => !(v == "")
  | some (FieldVal.parts ps) => !ps.isEmpty

/-- An order row of the `ordem_pedido` table, restricted to the columns the
orchestrator reads. -/
structure OrderRecord where
  codigo_op : String
  nome_cliente : String
  status : String := ""
  data_entrega : String := ""
deriving DecidableEq, Repr

/-- A part row of the `pecas` table, restricted to the columns the
orchestrator reads. -/
structure PartRecord where
  id_peca : String
  nome_peca : String
  codigo_op : String := ""
  nome_cliente : String := ""
deriving DecidableEq, Repr

/-- The record a delete/update candidate points at: an order or a part. -/
inductive CandidateItem
  | order (o : OrderRecord)
  | part (p : PartRecord)
deriving DecidableEq, Repr

/-- A disambiguated candidate held in session state: `{"type": ..., "data":
..., "fields": ...}` in the source (the `fields` key is only populated by the
update flow). -/
structure Candidate where
  item : CandidateItem
  fields : List (String × String) := []
deriving DecidableEq, Repr

/-- The extraction result returned by `extract_data_from_message`
(src/tools.py): boolean intent flags plus payload, one field per key of the
JSON contract in the prompt (plus `missing_update_value`, which only
src/agent.py reads).  Queries are typed as strings: the defensive
`isinstance(query, list)` normalisation in the delete branch of the endpoint
collapses under this typing. -/
structure Extraction where
  is_order_intent : Bool := false
  is_add_part_intent : Bool := false
  is_search_intent : Bool := false
  is_delete_intent : Bool := false
  is_update_intent : Bool := false
  search_query : Option String := none
  delete_target : Option String := none
  delete_query : Option String := none
  update_target : Option String := none
  update_query : Option String := none
  codigo_op : Option String := none
  update_fields : List (String × String) := []
  target_op : Option String := none
  data : Option Dict := none
  parts_data : List PartDict := []
  missing_fields : List String := []
  missing_message : Option String := none
  missing_update_value : Option String := none
deriving DecidableEq, Repr

namespace ProductionAgent

/-- The value of `self.state["awaiting_confirmation"]` when set: 'order',
'parts', 'delete', 'update' or 'post_order_parts'. -/
inductive ConfirmKind
  | order
  | parts
  | delete
  | update
  | postOrderParts
deriving DecidableEq, Repr

/-- The pending partial-update record `self.state["partial_update"]`:
`{"target": ..., "query": ..., "field": ...}`. -/
structure PartialUpdate where
  target : Option String
  query : Option String
  field : String
deriving DecidableEq, Repr

/-- The agent's per-conversation state dict (`ProductionAgent.__init__`). -/
structure AgentState where
  awaiting_confirmation : Option ConfirmKind
  current_data : Option Dict
  pending_parts : List PartDict
  current_op : Option String
  candidate : Option Candidate
  partial_update : Option PartialUpdate
deriving DecidableEq, Repr

/-- The state `_reset_state` installs; also the `__init__` state. -/
def reset_state : AgentState :=
  { awaiting_confirmation := none
    current_data := none
    pending_parts := []
    current_op := none
    candidate := none
    partial_update := none }

/-- One external call the agent issues through src/tools.py.  `extractCall`
and `chatCall` are LLM calls; the rest are repository (HTTP API) calls. -/
inductive Call
  | extractCall (msg : String)
  | chatCall (msg : String)
  | searchOrdersCall (q : Option String)
  | searchPartsCall (q : Option String)
  | createOrderCall (payload : Dict)
  | createPartsCall (op : String) (pecas : List PartDict)
  | deleteOrderCall (op : String)
  | deletePartCall (id : String)
  | updateOrderCall (op : String) (fields : List (String × String))
  | updatePartCall (id : String) (fields : List (String × String))
deriving DecidableEq, Repr

/-- Does the call mutate the record store? -/
def Call.isMutation : Call → Bool
  | Call.createOrderCall _ => true
  | Call.createPartsCall _ _ => true
  | Call.deleteOrderCall _ => true
  | Call.deletePartCall _ => true
  | Call.updateOrderCall _ _ => true
  | Call.updatePartCall _ _ => true
  | _ => false

/-- Is the call an intent-extraction (LLM) call? -/
def Call.isExtract : Call → Bool
  | Call.extractCall _ => true
  | _ => false

/-- Which confirmation kind a mutation call finalizes, if any. -/
def Call.confirmKind : Call → Option ConfirmKind
  | Call.createOrderCall _ => some ConfirmKind.order
  | Call.createPartsCall _ _ => some ConfirmKind.parts
  | Call.deleteOrderCall _ => some ConfirmKind.delete
  | Call.deletePartCall _ => some ConfirmKind.delete
  | Call.updateOrderCall _ _ => some ConfirmKind.update
  | Call.updatePartCall _ _ => some ConfirmKind.update
  | _ => none

/-- An HTTP response as the agent observes it through src/tools.py:
`status_code`, the error `text`, and the `codigo_op` field of the JSON body
(only read after a successful order creation). -/
structure HttpResp where
  status_code : Nat
  codigo_op : String := ""
  text : String := ""
deriving DecidableEq, Repr

/-- The external world for one agent turn: the extraction the LLM would
return for this message, the repository's search results, and the responses
each mutating endpoint would return if called.  `Option.none` for a response
models the tool returning `None` (connection error); `create_order` never
returns `None` in the source (it builds a status-500 dummy), which is the
`some` case with a non-200 status. -/
structure Env where
  extract : Option Extraction
  searchOrders : Option String → List OrderRecord
  searchParts : Option String → List PartRecord
  createOrderRes : Option HttpResp
  createPartsRes : Option HttpResp
  deleteRes : Option HttpResp
  updateRes : Option HttpResp

/-- The responses of src/agent.py, one constructor per literal message or
template call (the Response Formatter, src/templates.py, is a pure renderer
and is kept symbolic). -/
inductive Response
  | cancelled
  | confirmAgain
  | askParts
  | orderConfirmation (data : Dict)
  | missingData (question : String)
  | orderCreatedWithParts (op : String) (n : Nat)
  | orderCreatedAskParts (op : String)
  | createOrderFailed (err : String)
  | partsCreated
  | partsDataLost
  | createPartsFailed (err : String)
  | itemLost
  | deleteSuccess (label : String)
  | deleteFailed
  | updateSuccess (label : String)
  | updateFailed
  | searchNotFound (q : Option String)
  | searchResults (q : Option String) (orders : List OrderRecord) (parts : List PartRecord)
  | deleteNotFound (q : Option String)
  | deleteConfirmation (tipo ident details : String)
  | tooMany (n : Nat)
  | updateNotFound (q : Option String)
  | updateConfirmation (tipo ident : String) (fields : List (String × String))
  | askUpdateValue (f : String)
  | askWhichClient
  | partsConfirmation (client : String) (op : Option String) (ps : List PartDict)
  | partsNotIdentified
  | didNotUnderstand
  | chatReply
deriving DecidableEq, Repr

/-- The outcome of one agent turn: the response, the successor state, and the
trace of external calls issued, in order. -/
structure TurnResult where
  response : Response
  state : AgentState
  calls : List Call
deriving DecidableEq, Repr

/-- The affirmative keyword set of `_handle_confirmation`. -/
def yesKeywords : List String := ["sim", "s", "yes", "ok", "pode", "confirm"]

/-- The negative keyword set of `_handle_confirmation`. -/
def noKeywords : List String := ["não", "nao", "no", "cancel"]

/-- Python `any(k in msg_lower for k in ["sim", "s", "yes", "ok", "pode",
"confirm"])`. -/
def isYes (msg : String) : Bool :=
  yesKeywords.any (fun k => containsSub msg k)

/-- Python `any(k in msg_lower for k in ["não", "nao", "no", "cancel"])`. -/
def isNo (msg : String) : Bool :=
  noKeywords.any (fun k => containsSub msg k)

/-- `ProductionAgent._finalize_create_order`.  Returns `none` when the code
would raise (`data.items()` with `current_data = None`). -/
def finalize_create_order (env : Env) (s : AgentState) : Option TurnResult :=
  match s.current_data with
  | none => none
  | some data =>
    let order_payload : Dict := data.filter (fun kv => !(kv.1 == "pecas"))
    let parts_payload : List PartDict :=
      match dictGet data "pecas" with
      | some (FieldVal.parts ps) => ps
      | _ => []
    let calls := [Call.createOrderCall order_payload]
    match env.createOrderRes with
    | some res =>
      if res.status_code == 200 then
        let op_code := res.codigo_op
        if !parts_payload.isEmpty then
          some { response := Response.orderCreatedWithParts op_code parts_payload.length
                 state := { s with current_op := some op_code
                                   pending_parts := parts_payload
                                   awaiting_confirmation := some ConfirmKind.parts
                                   current_data := none }
                 calls := calls }
        else
          some { response := Response.orderCreatedAskParts op_code
                 state := { reset_state with current_op := some op_code
                                             awaiting_confirmation := some ConfirmKind.postOrderParts }
                 calls := calls }
      else
        some { response := Response.createOrderFailed res.text, state := s, calls := calls }
    | none =>
      some { response := Response.createOrderFailed "Erro desconhecido", state := s, calls := calls }

/-- `ProductionAgent._finalize_create_parts`. -/
def finalize_create_parts (env : Env) (s : AgentState) : TurnResult :=
  match s.current_op, s.pending_parts with
  | some op, p :: ps =>
    let calls := [Call.createPartsCall op (p :: ps)]
    (match env.createPartsRes with
     | some res =>
       if res.status_code == 200 then
         { response := Response.partsCreated, state := reset_state, calls := calls }
       else
         { response := Response.createPartsFailed res.text, state := s, calls := calls }
     | none =>
       { response := Response.createPartsFailed "Erro desconhecido", state := s, calls := calls })
  | _, _ => { response := Response.partsDataLost, state := s, calls := [] }

/-- `ProductionAgent._finalize_delete`. -/
def finalize_delete (env : Env) (s : AgentState) : TurnResult :=
  match s.candidate with
  | none => { response := Response.itemLost, state := s, calls := [] }
  | some c =>
    let call := match c.item with
      | CandidateItem.order o => Call.deleteOrderCall o.codigo_op
      | CandidateItem.part p => Call.deletePartCall p.id_peca
    let label := match c.item with
      | CandidateItem.order o => "Pedido " ++ o.codigo_op
      | CandidateItem.part p => "Peça " ++ p.nome_peca
    match env.deleteRes with
    | some res =>
      if res.status_code == 200 then
        { response := Response.deleteSuccess label, state := reset_state, calls := [call] }
      else
        { response := Response.deleteFailed, state := reset_state, calls := [call] }
    | none =>
      { response := Response.deleteFailed, state := reset_state, calls := [call] }

/-- `ProductionAgent._finalize_update`. -/
def finalize_update (env : Env) (s : AgentState) : TurnResult :=
  match s.candidate with
  | none => { response := Response.itemLost, state := s, calls := [] }
  | some c =>
    let call := match c.item with
      | CandidateItem.order o => Call.updateOrderCall o.codigo_op c.fields
      | CandidateItem.part p => Call.updatePartCall p.id_peca c.fields
    let label := match c.item with
      | CandidateItem.order o => "Pedido " ++ o.codigo_op
      | CandidateItem.part p => "Peça " ++ p.nome_peca
    match env.updateRes with
    | some res =>
      if res.status_code == 200 then
        { response := Response.updateSuccess label, state := reset_state, calls := [call] }
      else
        { response := Response.updateFailed, state := reset_state, calls := [call] }
    | none =>
      { response := Response.updateFailed, state := reset_state, calls := [call] }

/-- `ProductionAgent._handle_confirmation`, dispatching on the pending
confirmation kind `k` (the caller guarantees
`s.awaiting_confirmation = some k`). -/
def handle_confirmation (env : Env) (s : AgentState) (msg : String) (k : ConfirmKind) :
    Option TurnResult :=
  if isNo msg then
    some { response := Response.cancelled, state := reset_state, calls := [] }
  else if !isYes msg then
    some { response := Response.confirmAgain, state := s, calls := [] }
  else
    match k with
    | ConfirmKind.order => finalize_create_order env s
    | ConfirmKind.parts => some (finalize_create_parts env s)
    | ConfirmKind.delete => some (finalize_delete env s)
    | ConfirmKind.update => some (finalize_update env s)
    | ConfirmKind.postOrderParts =>
      some { response := Response.askParts
             state := { s with awaiting_confirmation := none }
             calls := [] }

/-- `ProductionAgent._handle_order_intent`.  Returns `none` when the code
would raise (`format_order_confirmation(None)` with no missing fields). -/
def handle_order_intent (ex : Extraction) (s : AgentState) : Option TurnResult :=
  if ex.missing_fields.isEmpty then
    match ex.data with
    | none => none
    | some d =>
      some { response := Response.orderConfirmation d
             state := { s with current_data := ex.data
                               awaiting_confirmation := some ConfirmKind.order }
             calls := [] }
  else
    let question := match ex.missing_message with
      | some m => m
      | none => "Faltam dados: " ++ String.intercalate ", " ex.missing_fields ++ "."
    some { response := Response.missingData question
           state := { s with current_data := ex.data }
           calls := [] }

/-- `ProductionAgent._handle_search_intent`. -/
def handle_search_intent (env : Env) (ex : Extraction) (s : AgentState) : TurnResult :=
  let query := ex.search_query
  let orders := env.searchOrders query
  let parts := env.searchParts query
  let calls := [Call.searchOrdersCall query, Call.searchPartsCall query]
  if orders.isEmpty && parts.isEmpty then
    { response := Response.searchNotFound query, state := s, calls := calls }
  else
    { response := Response.searchResults query orders parts, state := s, calls := calls }

/-- `ProductionAgent._handle_delete_intent`.  Returns `none` on the
(unreachable) index error when `total == 1` with both result lists empty. -/
def handle_delete_intent (env : Env) (ex : Extraction) (s : AgentState) : Option TurnResult :=
  let target := ex.delete_target
  let query := ex.delete_query
  let searchOrd := target == some "order" || target == some "any"
  let searchPrt := target == some "part" || target == some "any"
  let candidates_orders := if searchOrd then env.searchOrders query else []
  let candidates_parts := if searchPrt then env.searchParts query else []
  let calls := (if searchOrd then [Call.searchOrdersCall query] else []) ++
               (if searchPrt then [Call.searchPartsCall query] else [])
  let total := candidates_orders.length + candidates_parts.length
  if total == 0 then
    some { response := Response.deleteNotFound query, state := s, calls := calls }
  else if total == 1 then
    match candidates_orders, candidates_parts with
    | item :: _, _ =>
      some { response := Response.deleteConfirmation "Pedido" item.codigo_op
               ("Cliente: " ++ item.nome_cliente)
             state := { s with candidate := some { item := CandidateItem.order item }
                               awaiting_confirmation := some ConfirmKind.delete }
             calls := calls }
    | [], item :: _ =>
      some { response := Response.deleteConfirmation "Peça" item.nome_peca
               ("OP: " ++ item.codigo_op)
             state := { s with candidate := some { item := CandidateItem.part item }
                               awaiting_confirmation := some ConfirmKind.delete }
             calls := calls }
    | [], [] => none
  else
    some { response := Response.tooMany total, state := s, calls := calls }

/-- `ProductionAgent._handle_update_intent`.  Returns `none` on the
(unreachable) index error when `total == 1` with both result lists empty. -/
def handle_update_intent (env : Env) (ex : Extraction) (s : AgentState) : Option TurnResult :=
  let target := ex.update_target
  let query := ex.update_query
  let fields := ex.update_fields
  match ex.missing_update_value with
  | some f =>
    let pu : PartialUpdate := { target := target, query := query, field := f }
    some { response := Response.askUpdateValue f
           state := { s with partial_update := some pu }
           calls := [] }
  | none =>
    let searchOrd := target == some "order" || target == some "any"
    let searchPrt := target == some "part" || target == some "any"
    let candidates_orders := if searchOrd then env.searchOrders query else []
    let candidates_parts := if searchPrt then env.searchParts query else []
    let calls := (if searchOrd then [Call.searchOrdersCall query] else []) ++
                 (if searchPrt then [Call.searchPartsCall query] else [])
    let total := candidates_orders.length + candidates_parts.length
    if total == 1 then
      match candidates_orders, candidates_parts with
      | item :: _, _ =>
        some { response := Response.updateConfirmation "Pedido" item.codigo_op fields
               state := { s with
                 candidate := some { item := CandidateItem.order item, fields := fields }
                 awaiting_confirmation := some ConfirmKind.update }
               calls := calls }
      | [], item :: _ =>
        some { response := Response.updateConfirmation "Peça" item.nome_peca fields
               state := { s with
                 candidate := some { item := CandidateItem.part item, fields := fields }
                 awaiting_confirmation := some ConfirmKind.update }
               calls := calls }
      | [], [] => none
    else if total == 0 then
      some { response := Response.updateNotFound query, state := s, calls := calls }
    else
      some { response := Response.tooMany total, state := s, calls := calls }

/-- `ProductionAgent._handle_partial_update`: the raw message is captured as
the literal new value for the recorded field, and the update flow is
re-entered with `partial_update` cleared first. -/
def handle_partial_update (env : Env) (s : AgentState) (msg : String) : Option TurnResult :=
  match s.partial_update with
  | none => none
  | some pu =>
    let ex : Extraction :=
      { is_update_intent := true
        update_target := pu.target
        update_query := pu.query
        update_fields := [(pu.field, msg)] }
    handle_update_intent env ex { s with partial_update := none }

/-- `ProductionAgent._handle_add_part_intent`. -/
def handle_add_part_intent (ex : Extraction) (s : AgentState) : TurnResult :=
  let data := ex.data.getD []
  let parts := ex.parts_data
  if !ex.missing_fields.isEmpty then
    let question := match ex.missing_message with
      | some m => m
      | none => "Faltam dados para adicionar a peça: " ++
          String.intercalate ", " ex.missing_fields ++ "."
    { response := Response.missingData question, state := s, calls := [] }
  else
    let client_name : Option String :=
      match dictGet data "nome_cliente" with
      | some (FieldVal.s v) => some v
      | _ => none
    if s.current_op == none && client_name == none then
      { response := Response.askWhichClient, state := s, calls := [] }
    else if !parts.isEmpty then
      let s1 := { s with pending_parts := parts }
      let s2 := match client_name with
        | some c => { s1 with current_data := some [("nome_cliente", FieldVal.s c)] }
        | none => s1
      { response := Response.partsConfirmation (client_name.getD "Atual") s.current_op parts
        state := { s2 with awaiting_confirmation := some ConfirmKind.parts }
        calls := [] }
    else
      { response := Response.partsNotIdentified, state := s, calls := [] }

/-- Prefix the turn's call trace with the extraction call made on entry to
the general intent processing path. -/
def withExtract (msg : String) (r : Option TurnResult) : Option TurnResult :=
  r.map (fun t => { t with calls := Call.extractCall msg :: t.calls })

/-- `ProductionAgent.process_input` (the PDF-attachment parameter is always
absent in the contexts this development covers).  `none` models an uncaught
exception. -/
def process_input (env : Env) (s : AgentState) (msg : String) : Option TurnResult :=
  match s.awaiting_confirmation with
  | some k => handle_confirmation env s msg k
  | none =>
    if s.partial_update.isSome then
      handle_partial_update env s msg
    else
      match env.extract with
      | none =>
        some { response := Response.didNotUnderstand, state := s
               calls := [Call.extractCall msg] }
      | some ex =>
        if ex.is_order_intent then withExtract msg (handle_order_intent ex s)
        else if ex.is_search_intent then withExtract msg (some (handle_search_intent env ex s))
        else if ex.is_delete_intent then withExtract msg (handle_delete_intent env ex s)
        else if ex.is_update_intent then withExtract msg (handle_update_intent env ex s)
        else if ex.is_add_part_intent then withExtract msg (some (handle_add_part_intent ex s))
        else
          some { response := Response.chatReply, state := s
                 calls := [Call.extractCall msg, Call.chatCall msg] }

end ProductionAgent

namespace Api

open ProductionAgent in
/-- The affirmative keyword check of the `/chat` endpoint's confirmation
branches (src/api.py lines 413, 545 and 649):
`any(k in message.lower() for k in ["sim", "s", "yes", "confirm"])`. -/
def apiIsAffirmative (msg : String) : Bool :=
  (["sim", "s", "yes", "confirm"] : List String).any (fun k => containsSub msg k)

/-- The negative keyword check of the endpoint's create-confirmation branch
(src/api.py line 569): `any(k in message.lower() for k in ["não", "nao",
"cancel"])`. -/
def apiIsNegativeCreate (msg : String) : Bool :=
  (["não", "nao", "cancel"] : List String).any (fun k => containsSub msg k)

/-- One Supabase table operation, by query shape, as issued in src/api.py. -/
inductive SupaCall
  | selectPartIdsByOp (op : String)
  | selectOrderByCode (op : String)
  | searchOrdersFullText (q : String)
  | searchPartsFullText (q : String)
  | searchOrdersByCodes (codes : List String)
  | searchOrdersCodeOrClient (q : String)
  | searchPartsByIds (ids : List String)
  | searchPartsByNames (names : List String)
  | searchOrdersCodeOrClientOp (q : String) (opFilter : Option String)
  | selectPartById (id : String)
  | searchPartsByName (q : String) (opFilter : Option String)
  | deleteHistoryByPartIds (ids : List String)
  | deleteHistoryByPartId (id : String)
  | deleteAlertsByOp (op : String)
  | deletePartsByOp (op : String)
  | deletePartById (id : String)
  | deleteOrderByCode (op : String)
  | insertOrder (payload : Dict)
  | insertParts (payload : List PartDict)
  | updateOrderByCode (op : String) (fields : List (String × String))
  | updatePartById (id : String) (fields : List (String × String))
deriving DecidableEq, Repr

/-- Does the table operation write (insert, update or delete)? -/
def SupaCall.isWrite : SupaCall → Bool
  | SupaCall.deleteHistoryByPartIds _ => true
  | SupaCall.deleteHistoryByPartId _ => true
  | SupaCall.deleteAlertsByOp _ => true
  | SupaCall.deletePartsByOp _ => true
  | SupaCall.deletePartById _ => true
  | SupaCall.deleteOrderByCode _ => true
  | SupaCall.insertOrder _ => true
  | SupaCall.insertParts _ => true
  | SupaCall.updateOrderByCode _ _ => true
  | SupaCall.updatePartById _ _ => true
  | _ => false

/-- Is the operation the deletion of an `ordem_pedido` row? -/
def SupaCall.isOrderRowDelete : SupaCall → Bool
  | SupaCall.deleteOrderByCode _ => true
  | _ => false

/-- Is the operation the deletion of a `pecas` row (by id)? -/
def SupaCall.isPartRowDelete : SupaCall → Bool
  | SupaCall.deletePartById _ => true
  | _ => false

/-- One external call the `/chat` endpoint issues. -/
inductive ApiCall
  | extract (msg : String)
  | generate
  | chat (msg : String)
  | webhookTrigger
  | supa (c : SupaCall)
deriving DecidableEq, Repr

/-- Does the call mutate the record store? -/
def ApiCall.isMutation : ApiCall → Bool
  | ApiCall.supa c => c.isWrite
  | _ => false

/-- Is the call an intent-extraction (LLM) call? -/
def ApiCall.isExtract : ApiCall → Bool
  | ApiCall.extract _ => true
  | _ => false

/-- The session-state dict stored in `chat_sessions.state`, restricted to the
keys `chat_endpoint` reads or writes.  Absent keys are `none`/`false`/`[]`
(Python `state.get(...)` falsiness). -/
structure ApiState where
  partial_data : Option Dict := none
  awaiting_delete_confirmation : Bool := false
  delete_candidate : Option Candidate := none
  delete_candidates : List Candidate := []
  awaiting_create_confirmation : Bool := false
  awaiting_update_confirmation : Bool := false
  update_candidate : Option Candidate := none
  active_order_op : Option String := none
  last_active_item : Option Candidate := none
  last_search_results : Option (List OrderRecord × List PartRecord) := none
deriving DecidableEq, Repr

/-- One key-value assignment of a `new_context` dict built by the endpoint. -/
inductive CtxKV
  | partialData (d : Option Dict)
  | awaitingDelete (b : Bool)
  | deleteCandidate (c : Candidate)
  | deleteCandidates (cs : List Candidate)
  | awaitingCreate (b : Bool)
  | awaitingUpdate (b : Bool)
  | updateCandidate (c : Candidate)
  | activeOrderOp (op : String)
  | lastActiveItem (c : Candidate)
  | lastSearchResults (rs : List OrderRecord × List PartRecord)
deriving DecidableEq, Repr

/-- The `new_context` value of a `ChatResponse`: either an explicit dict of
assignments, or (default conversational branch only) the loaded state dict
passed back whole. -/
inductive NewContext
  | dict (kvs : List CtxKV)
  | fullState (s : ApiState)
deriving DecidableEq, Repr

/-- Apply one `new_context` assignment to the stored state dict. -/
def applyCtx (s : ApiState) : CtxKV → ApiState
  | CtxKV.partialData d => { s with partial_data := d }
  | CtxKV.awaitingDelete b => { s with awaiting_delete_confirmation := b }
  | CtxKV.deleteCandidate c => { s with delete_candidate := some c }
  | CtxKV.deleteCandidates cs => { s with delete_candidates := cs }
  | CtxKV.awaitingCreate b => { s with awaiting_create_confirmation := b }
  | CtxKV.awaitingUpdate b => { s with awaiting_update_confirmation := b }
  | CtxKV.updateCandidate c => { s with update_candidate := some c }
  | CtxKV.activeOrderOp op => { s with active_order_op := some op }
  | CtxKV.lastActiveItem c => { s with last_active_item := some c }
  | CtxKV.lastSearchResults rs => { s with last_search_results := some rs }

/-- The session update of src/api.py lines 761-765: `new_state = {**state,
**response_obj.new_context}` when `new_context` is not `None`, else the state
is kept as loaded.  Merging the empty dict changes nothing; the default
branch passes the loaded state dict back, which merges to itself. -/
def mergeState (s : ApiState) : Option NewContext → ApiState
  | none => s
  | some (NewContext.dict kvs) => kvs.foldl applyCtx s
  | some (NewContext.fullState t) => t

/-- The tag of a `generate_agent_response` LLM call: the `action_result`
payload shape passed to it (the rendered text is opaque). -/
inductive GenTag
  | searchNotFound (q : String)
  | deleteCancelled
  | deleteNotFound (q : String)
  | deleteMultiple (n : Nat) (q : String)
  | createCancelled
  | createMissing (missing : List String)
  | addPartsWhichOp
  | partsNotUnderstood
  | orderNotFound (op : String)
  | updateCancelled
  | updateNotFound (q : String)
  | updateMultiple (n : Nat) (q : Option String)
deriving DecidableEq, Repr

/-- The responses of `chat_endpoint`, one constructor per literal message,
template call, or `generate_agent_response` call. -/
inductive ApiResponse
  | erroInterno
  | askWhatSearch
  | generated (tag : GenTag)
  | searchResultsMsg (q : String) (orders : List OrderRecord) (parts : List PartRecord)
  | deleteSuccessOne (label : String)
  | deleteSuccessMany (labels : List String)
  | deleteConfirm (tipo ident details : String)
  | batchDeleteOrders (orders : List OrderRecord)
  | batchDeleteParts (parts : List PartRecord)
  | orderCreated (op : String)
  | orderConfirm (data : Dict)
  | missingMsg (m : String)
  | partsAdded
  | updateSuccessMsg (label : String)
  | updateContextLost
  | updateConfirm (tipo ident : String) (fields : List (String × String))
  | chatReply
deriving DecidableEq, Repr

/-- The outcome of one `/chat` turn: the response, the `new_context` to merge
into the session state, and the trace of external calls, in order. -/
structure ApiTurn where
  response : ApiResponse
  ctx : Option NewContext
  calls : List ApiCall
deriving DecidableEq, Repr

/-- The external world for one `/chat` turn: the extraction result, the
Supabase search results per query shape, the generated OP code and today's
date, plus pure Python library behaviour the model keeps opaque
(`uuid.UUID` validity, `unicodedata`-based `normalize_text`). -/
structure ApiEnv where
  extract : Option Extraction
  ordersFullText : String → List OrderRecord
  partsFullText : String → List PartRecord
  ordersByCodes : List String → List OrderRecord
  ordersCodeOrClient : String → List OrderRecord
  partsByIds : List String → List PartRecord
  partsByNames : List String → List PartRecord
  ordersCodeOrClientOp : String → Option String → List OrderRecord
  partById : String → List PartRecord
  partsByName : String → Option String → List PartRecord
  orderByCode : String → List OrderRecord
  partIdsByOp : String → List String
  isUUID : String → Bool
  normalize : String → String
  genCode : String
  today : String

/-- Substring test after `normalize_text` on both sides (src/api.py local
filtering of cached search results). -/
def normIn (env : ApiEnv) (needle hay : String) : Bool :=
  containsSeq (env.normalize needle).data (env.normalize hay).data

/-- Deduplicate part rows by `id_peca`, keeping first occurrences (the
`seen_ids` loop of the endpoint's delete search). -/
def dedupById (ps : List PartRecord) : List PartRecord :=
  ps.foldl (fun acc p => if acc.any (fun q => q.id_peca == p.id_peca) then acc
                         else acc ++ [p]) []

/-- The per-candidate deletion work of the delete-confirmation branch
(src/api.py lines 420-440): the calls issued and the label recorded in
`deleted_items`. -/
def deleteCandidateCalls (env : ApiEnv) (c : Candidate) : List ApiCall × String :=
  match c.item with
  | CandidateItem.order o =>
    let ids := env.partIdsByOp o.codigo_op
    ([ApiCall.supa (SupaCall.selectPartIdsByOp o.codigo_op)] ++
     (if ids.isEmpty then [] else [ApiCall.supa (SupaCall.deleteHistoryByPartIds ids)]) ++
     [ApiCall.supa (SupaCall.deleteAlertsByOp o.codigo_op),
      ApiCall.supa (SupaCall.deletePartsByOp o.codigo_op),
      ApiCall.supa (SupaCall.deleteOrderByCode o.codigo_op)],
     "OP " ++ o.codigo_op)
  | CandidateItem.part p =>
    ([ApiCall.supa (SupaCall.deleteHistoryByPartId p.id_peca),
      ApiCall.supa (SupaCall.deletePartById p.id_peca)],
     "Peça " ++ p.nome_peca)

/-- The `--- SEARCH INTENT ---` branch of `chat_endpoint`. -/
def searchBranch (env : ApiEnv) (ex : Extraction) : Option ApiTurn :=
  match ex.search_query with
  | none => some { response := ApiResponse.askWhatSearch, ctx := none, calls := [] }
  | some query =>
    let safe_query := query.trim
    let orders := env.ordersFullText safe_query
    let parts := env.partsFullText safe_query
    let calls := [ApiCall.supa (SupaCall.searchOrdersFullText safe_query),
                  ApiCall.supa (SupaCall.searchPartsFullText safe_query)]
    if orders.isEmpty && parts.isEmpty then
      some { response := ApiResponse.generated (GenTag.searchNotFound query)
             ctx := none
             calls := calls ++ [ApiCall.generate] }
    else
      let base := [CtxKV.lastSearchResults (orders, parts)]
      let kvs :=
        match orders, parts with
        | [o], [] => base ++ [CtxKV.lastActiveItem { item := CandidateItem.order o }]
        | [], [p] => base ++ [CtxKV.lastActiveItem { item := CandidateItem.part p }]
        | _, _ => base
      some { response := ApiResponse.searchResultsMsg query orders parts
             ctx := some (NewContext.dict kvs)
             calls := calls }

/-- The `--- DELETE INTENT ---` branch of `chat_endpoint`.  Returns `none`
when the code would raise (`query.replace` with `delete_query = None`),
which the endpoint's outer `except` catches. -/
def deleteBranch (env : ApiEnv) (st : ApiState) (msg : String) (ex : Extraction) :
    Option ApiTurn :=
  if st.awaiting_delete_confirmation then
    if apiIsAffirmative msg then
      let candidates :=
        if !st.delete_candidates.isEmpty then st.delete_candidates
        else match st.delete_candidate with
          | some c => [c]
          | none => []
      let work := candidates.map (deleteCandidateCalls env)
      let calls := (work.map (fun w => w.1)).flatten
      let deleted_items := work.map (fun w => w.2)
      let response :=
        if deleted_items.length == 1 then
          ApiResponse.deleteSuccessOne (deleted_items.headD "")
        else ApiResponse.deleteSuccessMany deleted_items
      some { response := response, ctx := some (NewContext.dict []), calls := calls }
    else
      some { response := ApiResponse.generated GenTag.deleteCancelled
             ctx := some (NewContext.dict [])
             calls := [ApiCall.generate] }
  else
    match ex.delete_query with
    | none => none
    | some query =>
      let clean_query := (query.replace " e " ",").replace " and " ","
      let query_parts := ((clean_query.splitOn ",").map String.trim).filter
        (fun q => !(q == ""))
      let target := ex.delete_target
      let wantOrders := target == some "order" || target == some "any"
      let wantParts := target == some "part" || target == some "any"
      let (orders, ocalls) :=
        if wantOrders then
          if query_parts.length > 1 then
            (env.ordersByCodes query_parts,
             [ApiCall.supa (SupaCall.searchOrdersByCodes query_parts)])
          else match query_parts with
            | q :: _ => (env.ordersCodeOrClient q,
                         [ApiCall.supa (SupaCall.searchOrdersCodeOrClient q)])
            | [] => ([], [])
        else ([], [])
      let (parts, pcalls) :=
        if wantParts then
          let valid_uuids := query_parts.filter env.isUUID
          let text_queries := query_parts.filter (fun q => !env.isUUID q)
          let (fp1, c1) :=
            if !valid_uuids.isEmpty then
              (env.partsByIds valid_uuids, [ApiCall.supa (SupaCall.searchPartsByIds valid_uuids)])
            else ([], [])
          let (fp2, c2) :=
            if !text_queries.isEmpty then
              (env.partsByNames text_queries,
               [ApiCall.supa (SupaCall.searchPartsByNames text_queries)])
            else ([], [])
          (dedupById (fp1 ++ fp2), c1 ++ c2)
        else ([], [])
      let calls := ocalls ++ pcalls
      let total := orders.length + parts.length
      if total == 1 then
        match orders, parts with
        | item :: _, _ =>
          some { response := ApiResponse.deleteConfirm "Pedido" item.codigo_op
                   ("Cliente: " ++ item.nome_cliente)
                 ctx := some (NewContext.dict
                   [CtxKV.awaitingDelete true,
                    CtxKV.deleteCandidate { item := CandidateItem.order item }])
                 calls := calls }
        | [], item :: _ =>
          some { response := ApiResponse.deleteConfirm "Peça" item.nome_peca
                   ("OP: " ++ item.codigo_op)
                 ctx := some (NewContext.dict
                   [CtxKV.awaitingDelete true,
                    CtxKV.deleteCandidate { item := CandidateItem.part item }])
                 calls := calls }
        | [], [] => none
      else if total == 0 then
        some { response := ApiResponse.generated (GenTag.deleteNotFound query)
               ctx := none
               calls := calls ++ [ApiCall.generate] }
      else if orders.length == total then
        some { response := ApiResponse.batchDeleteOrders orders
               ctx := some (NewContext.dict
                 [CtxKV.awaitingDelete true,
                  CtxKV.deleteCandidates (orders.map
                    (fun o => { item := CandidateItem.order o }))])
               calls := calls }
      else if parts.length == total then
        some { response := ApiResponse.batchDeleteParts parts
               ctx := some (NewContext.dict
                 [CtxKV.awaitingDelete true,
                  CtxKV.deleteCandidates (parts.map
                    (fun p => { item := CandidateItem.part p }))])
               calls := calls }
      else
        some { response := ApiResponse.generated (GenTag.deleteMultiple total query)
               ctx := none
               calls := calls ++ [ApiCall.generate] }

/-- The create-order payload construction of the endpoint's create
confirmation (src/api.py lines 547-552).  Returns `none` when the code would
raise (`data.items()` on `None`, or the `order_payload["data_entrega"]`
KeyError when the delivery date is absent). -/
def buildOrderPayload (env : ApiEnv) (data : Option Dict) : Option Dict :=
  match data with
  | none => none
  | some d =>
    let p0 := d.filter (fun kv => !(kv.1 == "pecas"))
    let p1 := dictSet p0 "codigo_op" (FieldVal.s env.genCode)
    let p2 := dictSet p1 "status" (FieldVal.s "Em Produção")
    let p3 :=
      if FieldVal.isTruthy (dictGet p2 "previsao_entrega") then some p2
      else match dictGet p2 "data_entrega" with
        | some v => some (dictSet p2 "previsao_entrega" v)
        | none => none
    match p3 with
    | none => none
    | some p =>
      some (if FieldVal.isTruthy (dictGet p "data_pedido") then p
            else dictSet p "data_pedido" (FieldVal.s env.today))

/-- The `--- CREATE ORDER INTENT ---` branch of `chat_endpoint` (src/api.py
lines 540-588), including the fall-through re-prompt when a pending create
confirmation receives a reply that is neither affirmative nor negative. -/
def orderBranch (env : ApiEnv) (st : ApiState) (msg : String) (ex : Extraction) :
    Option ApiTurn :=
  let data := ex.data
  let missing := ex.missing_fields
  let step1 : Option (Option ApiTurn) :=
    if st.awaiting_create_confirmation && missing.isEmpty then
      if apiIsAffirmative msg then
        some (match buildOrderPayload env data with
          | none => none
          | some payload =>
            some { response := ApiResponse.orderCreated env.genCode
                   ctx := some (NewContext.dict
                     [CtxKV.activeOrderOp env.genCode, CtxKV.partialData (some [])])
                   calls := [ApiCall.supa (SupaCall.insertOrder payload),
                             ApiCall.webhookTrigger] })
      else if apiIsNegativeCreate msg then
        some (some { response := ApiResponse.generated GenTag.createCancelled
                     ctx := some (NewContext.dict [])
                     calls := [ApiCall.generate] })
      else none
    else none
  match step1 with
  | some r => r
  | none =>
    if missing.isEmpty then
      match data with
      | none => none
      | some d =>
        some { response := ApiResponse.orderConfirm d
               ctx := some (NewContext.dict [CtxKV.awaitingCreate true, CtxKV.partialData data])
               calls := [] }
    else
      match ex.missing_message with
      | some m =>
        some { response := ApiResponse.missingMsg m
               ctx := some (NewContext.dict [CtxKV.partialData data])
               calls := [] }
      | none =>
        some { response := ApiResponse.generated (GenTag.createMissing missing)
               ctx := some (NewContext.dict [CtxKV.partialData data])
               calls := [ApiCall.generate] }

/-- The part-payload enrichment of the add-parts branch (src/api.py lines
619-628). -/
def enrichPart (active_op : String) (order_info : OrderRecord) (p : PartDict) : PartDict :=
  let p1 := partSet p "codigo_op" active_op
  let p2 := partSet p1 "status" "Pendente"
  let cliTruthy := match partGet p2 "nome_cliente" with
    | some v => !(v == "")
    | none => false
  let p3 := if cliTruthy then p2 else partSet p2 "nome_cliente" order_info.nome_cliente
  let p4 := partSet p3 "data_entrega" order_info.data_entrega
  partSet p4 "pecas_produzidas" "0"

/-- The `--- ADD PARTS INTENT ---` branch of `chat_endpoint` (src/api.py
lines 591-639). -/
def addPartsBranch (env : ApiEnv) (st : ApiState) (ex : Extraction) : Option ApiTurn :=
  let parts_data := ex.parts_data
  let active_op := match ex.target_op with
    | some t => some t
    | none => st.active_order_op
  match active_op with
  | none =>
    some { response := ApiResponse.generated GenTag.addPartsWhichOp
           ctx := none
           calls := [ApiCall.generate] }
  | some op =>
    if parts_data.isEmpty then
      if !ex.missing_fields.isEmpty then
        some { response := ApiResponse.missingMsg (ex.missing_message.getD "Faltam dados para a peça.")
               ctx := none
               calls := [] }
      else
        some { response := ApiResponse.generated GenTag.partsNotUnderstood
               ctx := none
               calls := [ApiCall.generate] }
    else
      let sel := [ApiCall.supa (SupaCall.selectOrderByCode op)]
      match env.orderByCode op with
      | order_info :: _ =>
        let parts_payload := parts_data.map (enrichPart op order_info)
        some { response := ApiResponse.partsAdded
               ctx := some (NewContext.dict [CtxKV.activeOrderOp op])
               calls := sel ++ [ApiCall.supa (SupaCall.insertParts parts_payload)] }
      | [] =>
        some { response := ApiResponse.generated (GenTag.orderNotFound op)
               ctx := some (NewContext.dict [])
               calls := sel ++ [ApiCall.generate] }

/-- The `--- UPDATE INTENT ---` branch of `chat_endpoint` (src/api.py lines
642-738), including the cached-result local filter and the context fallback
to `last_active_item`. -/
def updateBranch (env : ApiEnv) (st : ApiState) (msg : String) (ex : Extraction) :
    Option ApiTurn :=
  let target := ex.update_target.getD "any"
  let query := ex.update_query
  let op_filter := ex.codigo_op
  let fields := ex.update_fields
  if st.awaiting_update_confirmation then
    if apiIsAffirmative msg then
      match st.update_candidate with
      | some c =>
        let call := match c.item with
          | CandidateItem.order o => ApiCall.supa (SupaCall.updateOrderByCode o.codigo_op c.fields)
          | CandidateItem.part p => ApiCall.supa (SupaCall.updatePartById p.id_peca c.fields)
        let label := match c.item with
          | CandidateItem.order o => "Pedido " ++ o.codigo_op
          | CandidateItem.part p => "Peça " ++ p.nome_peca
        some { response := ApiResponse.updateSuccessMsg label
               ctx := some (NewContext.dict [])
               calls := [call] }
      | none =>
        some { response := ApiResponse.updateContextLost, ctx := none, calls := [] }
    else
      some { response := ApiResponse.generated GenTag.updateCancelled
             ctx := some (NewContext.dict [])
             calls := [ApiCall.generate] }
  else
    let found : List OrderRecord × List PartRecord × List ApiCall :=
      match query with
      | none =>
        (match st.last_active_item with
         | some la =>
           (match la.item with
            | CandidateItem.order o => ([o], [], [])
            | CandidateItem.part p => ([], [p], []))
         | none => ([], [], []))
      | some q =>
        let wantOrders := target == "order" || target == "any"
        let wantParts := target == "part" || target == "any"
        let lorders :=
          match st.last_search_results with
          | some (lo, _) =>
            if wantOrders then
              lo.filter (fun o => normIn env q o.nome_cliente || normIn env q o.codigo_op)
            else []
          | none => []
        let lparts :=
          match st.last_search_results with
          | some (_, lp) =>
            if wantParts then lp.filter (fun p => normIn env q p.nome_peca) else []
          | none => []
        if lparts.isEmpty && lorders.isEmpty then
          let dorders :=
            if wantOrders then env.ordersCodeOrClientOp q op_filter else []
          let ocalls :=
            if wantOrders then [ApiCall.supa (SupaCall.searchOrdersCodeOrClientOp q op_filter)]
            else []
          let dparts :=
            if wantParts then
              if env.isUUID q then env.partById q else env.partsByName q op_filter
            else []
          let pcalls :=
            if wantParts then
              if env.isUUID q then [ApiCall.supa (SupaCall.selectPartById q)]
              else [ApiCall.supa (SupaCall.searchPartsByName q op_filter)]
            else []
          (dorders, dparts, ocalls ++ pcalls)
        else (lorders, lparts, [])
    let orders := found.1
    let parts := found.2.1
    let calls := found.2.2
    let total := orders.length + parts.length
    if total == 1 then
      match orders, parts with
      | item :: _, _ =>
        some { response := ApiResponse.updateConfirm "Pedido" item.codigo_op fields
               ctx := some (NewContext.dict [CtxKV.awaitingUpdate true,
                 CtxKV.updateCandidate { item := CandidateItem.order item, fields := fields }])
               calls := calls }
      | [], item :: _ =>
        some { response := ApiResponse.updateConfirm "Peça" item.nome_peca fields
               ctx := some (NewContext.dict [CtxKV.awaitingUpdate true,
                 CtxKV.updateCandidate { item := CandidateItem.part item, fields := fields }])
               calls := calls }
      | [], [] => none
    else if total == 0 then
      some { response := ApiResponse.generated (GenTag.updateNotFound (query.getD "contexto"))
             ctx := none
             calls := calls ++ [ApiCall.generate] }
    else
      some { response := ApiResponse.generated (GenTag.updateMultiple total query)
             ctx := none
             calls := calls ++ [ApiCall.generate] }

/-- Prefix a branch outcome with the unconditional extraction call made at
src/api.py line 366. -/
def withExtractApi (msg : String) (r : Option ApiTurn) : Option ApiTurn :=
  r.map (fun t => { t with calls := ApiCall.extract msg :: t.calls })

/-- The core of `chat_endpoint` (src/api.py lines 359-746): intent
extraction on the raw message, then the intent-flag dispatch chain, then the
conversational default.  The session load/save wrapper is modelled by
`mergeState` on the returned `ctx`.  `none` models an exception reaching the
endpoint's outer `except` (error response, session not saved). -/
def chat_endpoint (env : ApiEnv) (st : ApiState) (msg : String) : Option ApiTurn :=
  match env.extract with
  | none =>
    some { response := ApiResponse.erroInterno, ctx := none, calls := [ApiCall.extract msg] }
  | some ex =>
    if ex.is_search_intent then withExtractApi msg (searchBranch env ex)
    else if ex.is_delete_intent then withExtractApi msg (deleteBranch env st msg ex)
    else if ex.is_order_intent then withExtractApi msg (orderBranch env st msg ex)
    else if ex.is_add_part_intent then withExtractApi msg (addPartsBranch env st ex)
    else if ex.is_update_intent then withExtractApi msg (updateBranch env st msg ex)
    else
      some { response := ApiResponse.chatReply
             ctx := some (NewContext.fullState st)
             calls := [ApiCall.extract msg, ApiCall.chat msg] }

/-- The repository world of the standalone REST delete endpoints: the
`id_peca` column of the parts belonging to an order. -/
structure DbEnv where
  partIdsByOp : String → List String

/-- The REST endpoint `DELETE /orders/{codigo_op}` (src/api.py lines
241-264): the Supabase calls it issues, in order. -/
def delete_order (env : DbEnv) (codigo_op : String) : List SupaCall :=
  let ids := env.partIdsByOp codigo_op
  [SupaCall.selectPartIdsByOp codigo_op] ++
  (if ids.isEmpty then [] else [SupaCall.deleteHistoryByPartIds ids]) ++
  [SupaCall.deleteAlertsByOp codigo_op,
   SupaCall.deletePartsByOp codigo_op,
   SupaCall.deleteOrderByCode codigo_op]

/-- The REST endpoint `DELETE /parts/{part_id}` (src/api.py lines 301-314):
the Supabase calls it issues, in order. -/
def delete_part (part_id : String) : List SupaCall :=
  [SupaCall.deleteHistoryByPartId part_id, SupaCall.deletePartById part_id]

end Api

open ProductionAgent

/-- Helper: `_finalize_create_order` with the order data present issues
exactly the one `create_order` repository call, whatever the repository
answers. -/
theorem finalize_create_order_calls (env : Env) (s : AgentState) (d : Dict)
    (hd : s.current_data = some d) :
    ∃ t, finalize_create_order env s = some t ∧
      t.calls = [Call.createOrderCall (d.filter (fun kv => !(kv.1 == "pecas")))] := by
  unfold finalize_create_order
  rw [hd]
  cases env.createOrderRes with
  | none => exact ⟨_, rfl, rfl⟩
  | some res =>
    by_cases h : res.status_code == 200
    · simp only [h, if_true]
      by_cases hp : (match dictGet d "pecas" with
        | some (FieldVal.parts ps) => ps
        | _ => []).isEmpty
      · simp [hp]
      · simp [hp]
    · simp only [h, if_false]
      exact ⟨_, rfl, rfl⟩

/-- Helper: `_finalize_create_parts` with the order reference and staged
parts present issues exactly the one `create_parts` repository call. -/
theorem finalize_create_parts_calls (env : Env) (s : AgentState) (op : String)
    (p : PartDict) (ps : List PartDict)
    (hop : s.current_op = some op) (hps : s.pending_parts = p :: ps) :
    (finalize_create_parts env s).calls = [Call.createPartsCall op (p :: ps)] := by
  unfold finalize_create_parts
  rw [hop, hps]
  cases env.createPartsRes with
  | none => rfl
  | some res =>
    by_cases h : res.status_code == 200
    · simp [h]
    · simp [h]

/-- Helper: `_finalize_delete` with a candidate present issues exactly one
delete repository call, targeting that candidate. -/
theorem finalize_delete_calls (env : Env) (s : AgentState) (c : Candidate)
    (hc : s.candidate = some c) :
    (finalize_delete env s).calls =
      [match c.item with
       | CandidateItem.order o => Call.deleteOrderCall o.codigo_op
       | CandidateItem.part p => Call.deletePartCall p.id_peca] := by
  unfold finalize_delete
  rw [hc]
  cases env.deleteRes with
  | none => rfl
  | some res =>
    by_cases h : res.status_code == 200
    · simp [h]
    · simp [h]

/-- Helper: `_finalize_update` with a candidate present issues exactly one
update repository call, targeting that candidate. -/
theorem finalize_update_calls (env : Env) (s : AgentState) (c : Candidate)
    (hc : s.candidate = some c) :
    (finalize_update env s).calls =
      [match c.item with
       | CandidateItem.order o => Call.updateOrderCall o.codigo_op c.fields
       | CandidateItem.part p => Call.updatePartCall p.id_peca c.fields] := by
  unfold finalize_update
  rw [hc]
  cases env.updateRes with
  | none => rfl
  | some res =>
    by_cases h : res.status_code == 200
    · simp [h]
    · simp [h]

/-- Helper: the Idle-state order-intent handler issues no repository call at
all. -/
theorem handle_order_intent_no_calls (ex : Extraction) (s : AgentState)
    (t : TurnResult) (h : handle_order_intent ex s = some t) : t.calls = [] := by
  unfold handle_order_intent at h
  by_cases hm : ex.missing_fields.isEmpty
  · simp only [hm, if_true] at h
    cases hd : ex.data with
    | none => rw [hd] at h; exact absurd h (by simp)
    | some d => rw [hd] at h; cases h; rfl
  · simp only [hm, if_false] at h
    cases h; rfl

/-- Helper: the Idle-state search handler issues only the two search calls,
never a mutation. -/
theorem handle_search_intent_mut_free (env : Env) (ex : Extraction) (s : AgentState) :
    (handle_search_intent env ex s).calls.filter Call.isMutation = [] := by
  unfold handle_search_intent
  by_cases h : (env.searchOrders ex.search_query).isEmpty &&
      (env.searchParts ex.search_query).isEmpty
  · simp [h, Call.isMutation]
  · simp [h, Call.isMutation]

/-- Helper: the Idle-state delete-intent handler only searches; it never
mutates in the turn that runs it. -/
theorem handle_delete_intent_mut_free (env : Env) (ex : Extraction) (s : AgentState)
    (t : TurnResult) (h : handle_delete_intent env ex s = some t) :
    t.calls.filter Call.isMutation = [] := by
  have hcalls : ∀ (b1 b2 : Bool) (q : Option String),
      ((if b1 = true then [Call.searchOrdersCall q] else []) ++
        (if b2 = true then [Call.searchPartsCall q] else [])).filter Call.isMutation = [] := by
    intro b1 b2 q
    cases b1 <;> cases b2 <;> simp [Call.isMutation]
  unfold handle_delete_intent at h
  simp only [] at h
  generalize hC : (if (ex.delete_target == some "order" || ex.delete_target == some "any") = true
      then [Call.searchOrdersCall ex.delete_query] else []) ++
      (if (ex.delete_target == some "part" || ex.delete_target == some "any") = true
      then [Call.searchPartsCall ex.delete_query] else []) = cs at h
  generalize (if (ex.delete_target == some "order" || ex.delete_target == some "any") = true
      then env.searchOrders ex.delete_query else []) = axs at h
  generalize (if (ex.delete_target == some "part" || ex.delete_target == some "any") = true
      then env.searchParts ex.delete_query else []) = pxs at h
  have hcs : cs.filter Call.isMutation = [] := by rw [← hC]; exact hcalls _ _ _
  split at h
  · cases h; exact hcs
  · split at h
    · cases axs with
      | cons o os => cases h; exact hcs
      | nil =>
        cases pxs with
        | cons p ps => cases h; exact hcs
        | nil => exact Option.noConfusion h
    · cases h; exact hcs

/-- Helper: the Idle-state update-intent handler only searches (or records a
pending partial update); it never mutates in the turn that runs it. -/
theorem handle_update_intent_mut_free (env : Env) (ex : Extraction) (s : AgentState)
    (t : TurnResult) (h : handle_update_intent env ex s = some t) :
    t.calls.filter Call.isMutation = [] := by
  have hcalls : ∀ (b1 b2 : Bool) (q : Option String),
      ((if b1 = true then [Call.searchOrdersCall q] else []) ++
        (if b2 = true then [Call.searchPartsCall q] else [])).filter Call.isMutation = [] := by
    intro b1 b2 q
    cases b1 <;> cases b2 <;> simp [Call.isMutation]
  unfold handle_update_intent at h
  cases hmv : ex.missing_update_value with
  | some f =>
    simp only [hmv] at h
    cases h
    rfl
  | none =>
    simp only [hmv] at h
    generalize hC : (if (ex.update_target == some "order" || ex.update_target == some "any") = true
        then [Call.searchOrdersCall ex.update_query] else []) ++
        (if (ex.update_target == some "part" || ex.update_target == some "any") = true
        then [Call.searchPartsCall ex.update_query] else []) = cs at h
    generalize (if (ex.update_target == some "order" || ex.update_target == some "any") = true
        then env.searchOrders ex.update_query else []) = axs at h
    generalize (if (ex.update_target == some "part" || ex.update_target == some "any") = true
        then env.searchParts ex.update_query else []) = pxs at h
    have hcs : cs.filter Call.isMutation = [] := by rw [← hC]; exact hcalls _ _ _
    split at h
    · cases axs with
      | cons o os => cases h; exact hcs
      | nil =>
        cases pxs with
        | cons p ps => cases h; exact hcs
        | nil => exact Option.noConfusion h
    · split at h
      · cases h; exact hcs
      · cases h; exact hcs

/-- Helper: the Idle-state partial-update handler re-enters the update flow,
so it never mutates either. -/
theorem handle_partial_update_mut_free (env : Env) (s : AgentState) (msg : String)
    (t : TurnResult) (h : handle_partial_update env s msg = some t) :
    t.calls.filter Call.isMutation = [] := by
  unfold handle_partial_update at h
  cases hpu : s.partial_update with
  | none => rw [hpu] at h; exact Option.noConfusion h
  | some pu =>
    rw [hpu] at h
    exact handle_update_intent_mut_free _ _ _ _ h

/-- Helper: the Idle-state add-part handler issues no external call at all. -/
theorem handle_add_part_intent_no_calls (ex : Extraction) (s : AgentState) :
    (handle_add_part_intent ex s).calls = [] := by
  unfold handle_add_part_intent
  simp only []
  split
  · rfl
  · split
    · rfl
    · split
      · split <;> rfl
      · rfl

/-- Helper: the extraction call is never a mutation, so it drops out of
mutation filters. -/
theorem filter_mut_extract_cons (m : String) (cs : List Call) :
    (Call.extractCall m :: cs).filter Call.isMutation = cs.filter Call.isMutation := by
  simp [Call.isMutation]

/-- Helper: with no pending confirmation, a turn of
`ProductionAgent.process_input` issues no repository mutation call at all —
every Idle-state (and pending-partial-update) path only extracts, searches,
or chats. -/
theorem process_input_idle_mut_free (env : Env) (s : AgentState) (msg : String)
    (t : TurnResult) (hidle : s.awaiting_confirmation = none)
    (h : process_input env s msg = some t) :
    t.calls.filter Call.isMutation = [] := by
  unfold process_input at h
  rw [hidle] at h
  cases hpu : s.partial_update with
  | some pu =>
    simp only [hpu, Option.isSome_some, if_true] at h
    exact handle_partial_update_mut_free env s msg t h
  | none =>
    simp only [hpu, Option.isSome_none, Bool.false_eq_true, if_false] at h
    cases hex : env.extract with
    | none => rw [hex] at h; cases h; rfl
    | some ex =>
      rw [hex] at h
      by_cases h1 : ex.is_order_intent
      · simp only [h1, if_true] at h
        unfold withExtract at h
        cases ho : handle_order_intent ex s with
        | none => rw [ho] at h; exact Option.noConfusion h
        | some t0 =>
          rw [ho] at h
          simp only [Option.map_some'] at h
          cases h
          rw [filter_mut_extract_cons, handle_order_intent_no_calls ex s t0 ho]
          rfl
      · simp only [h1, if_false] at h
        by_cases h2 : ex.is_search_intent
        · simp only [h2, if_true] at h
          unfold withExtract at h
          simp only [Option.map_some'] at h
          cases h
          rw [filter_mut_extract_cons]
          exact handle_search_intent_mut_free env ex s
        · simp only [h2, if_false] at h
          by_cases h3 : ex.is_delete_intent
          · simp only [h3, if_true] at h
            unfold withExtract at h
            cases ho : handle_delete_intent env ex s with
            | none => rw [ho] at h; exact Option.noConfusion h
            | some t0 =>
              rw [ho] at h
              simp only [Option.map_some'] at h
              cases h
              rw [filter_mut_extract_cons]
              exact handle_delete_intent_mut_free env ex s t0 ho
          · simp only [h3, if_false] at h
            by_cases h4 : ex.is_update_intent
            · simp only [h4, if_true] at h
              unfold withExtract at h
              cases ho : handle_update_intent env ex s with
              | none => rw [ho] at h; exact Option.noConfusion h
              | some t0 =>
                rw [ho] at h
                simp only [Option.map_some'] at h
                cases h
                rw [filter_mut_extract_cons]
                exact handle_update_intent_mut_free env ex s t0 ho
            · simp only [h4, if_false] at h
              by_cases h5 : ex.is_add_part_intent
              · simp only [h5, if_true] at h
                unfold withExtract at h
                simp only [Option.map_some'] at h
                cases h
                rw [filter_mut_extract_cons, handle_add_part_intent_no_calls ex s]
                rfl
              · simp only [h5, if_false] at h
                cases h
                rfl

/-- C1: for every sequence of turns of one session, a single affirmative
reply given while the session is in an Awaiting*Confirmation state (order,
parts, delete or update confirmation pending, with the state-specific
payload present as the state machine guarantees) triggers exactly one
corresponding repository mutation call; and once the state is back to Idle
(`awaiting_confirmation = None`), any further message — in particular the
same affirmative reply — triggers no mutation call at all. -/
theorem c1_at_most_one_mutation_per_confirmation :
    (∀ (env : Env) (s : AgentState) (msg : String) (k : ConfirmKind),
      s.awaiting_confirmation = some k →
      isNo msg = false →
      isYes msg = true →
      k ≠ ConfirmKind.postOrderParts →
      (k = ConfirmKind.order → s.current_data.isSome) →
      (k = ConfirmKind.parts → s.current_op.isSome ∧ s.pending_parts ≠ []) →
      (k = ConfirmKind.delete → s.candidate.isSome) →
      (k = ConfirmKind.update → s.candidate.isSome) →
      ∃ t, process_input env s msg = some t ∧
        (t.calls.filter Call.isMutation).map Call.confirmKind = [some k]) ∧
    (∀ (env : Env) (s : AgentState) (msg : String) (t : TurnResult),
      s.awaiting_confirmation = none →
      process_input env s msg = some t →
      t.calls.filter Call.isMutation = []) := by
  constructor
  · intro env s msg k hk hno hyes hpost h1 h2 h3 h4
    have hpi : process_input env s msg = handle_confirmation env s msg k := by
      unfold process_input; rw [hk]
    rw [hpi]
    unfold handle_confirmation
    rw [hno, hyes]
    simp only [Bool.false_eq_true, if_false, Bool.not_true, if_true]
    cases k with
    | order =>
      obtain ⟨d, hd⟩ := Option.isSome_iff_exists.mp (h1 rfl)
      obtain ⟨t, ht, hcalls⟩ := finalize_create_order_calls env s d hd
      exact ⟨t, ht, by rw [hcalls]; rfl⟩
    | parts =>
      obtain ⟨hop, hpp⟩ := h2 rfl
      obtain ⟨op, hop'⟩ := Option.isSome_iff_exists.mp hop
      cases hps : s.pending_parts with
      | nil => exact absurd hps hpp
      | cons p ps =>
        refine ⟨finalize_create_parts env s, rfl, ?_⟩
        rw [finalize_create_parts_calls env s op p ps hop' hps]
        rfl
    | delete =>
      obtain ⟨c, hc⟩ := Option.isSome_iff_exists.mp (h3 rfl)
      refine ⟨finalize_delete env s, rfl, ?_⟩
      rw [finalize_delete_calls env s c hc]
      cases c.item <;> rfl
    | update =>
      obtain ⟨c, hc⟩ := Option.isSome_iff_exists.mp (h4 rfl)
      refine ⟨finalize_update env s, rfl, ?_⟩
      rw [finalize_update_calls env s c hc]
      cases c.item <;> rfl
    | postOrderParts => exact absurd rfl hpost
  · exact process_input_idle_mut_free

/-- Helper: the executable prefix test agrees with `List.IsPrefix`. -/
theorem isPrefixChars_iff : ∀ (l m : List Char), isPrefixChars l m = true ↔ l <+: m
  | [], m => by
    simp [isPrefixChars, List.nil_prefix]
  | a :: as, [] => by
    simp [isPrefixChars]
  | a :: as, b :: bs => by
    rw [List.cons_prefix_cons]
    simp only [isPrefixChars, Bool.and_eq_true, beq_iff_eq]
    exact and_congr Iff.rfl (isPrefixChars_iff as bs)

/-- Helper: the executable occurrence test agrees with `List.IsInfix`. -/
theorem containsSeq_iff (needle : List Char) :
    ∀ (hay : List Char), containsSeq needle hay = true ↔ needle <:+: hay
  | [] => by
    simp [containsSeq, List.infix_nil, List.isEmpty_iff]
  | c :: rest => by
    rw [List.infix_cons_iff]
    simp only [containsSeq, Bool.or_eq_true]
    exact or_congr (isPrefixChars_iff needle (c :: rest)) (containsSeq_iff needle rest)

/-- Helper: `containsSub` is exactly case-insensitive substring occurrence in
the lowercased message. -/
theorem containsSub_iff (msg k : String) :
    containsSub msg k = true ↔ k.data <:+: lowerChars msg :=
  containsSeq_iff k.data (lowerChars msg)

/-- Fixtures for the concrete instantiations used by witnesses and
counterexamples: one known order and one known part. -/
def ordA : OrderRecord := { codigo_op := "ABC123", nome_cliente := "Acme" }

/-- Fixture: a part row of the repository. -/
def partA : PartRecord :=
  { id_peca := "pid-1", nome_peca := "niple", codigo_op := "ABC123" }

/-- Fixture: an agent environment with no extraction, empty searches, and no
repository responses. -/
def envEmpty : Env :=
  { extract := none
    searchOrders := fun _ => []
    searchParts := fun _ => []
    createOrderRes := none
    createPartsRes := none
    deleteRes := none
    updateRes := none }

/-- Fixture: an agent environment where every repository call succeeds. -/
def envOk : Env :=
  { envEmpty with
    createOrderRes := some { status_code := 200, codigo_op := "XYZ789" }
    createPartsRes := some { status_code := 200 }
    deleteRes := some { status_code := 200 }
    updateRes := some { status_code := 200 } }

/-- Fixture: a session awaiting the delete confirmation of order `ABC123`,
with the order also held as the active order reference. -/
def stateAwaitingDelete : AgentState :=
  { reset_state with
    awaiting_confirmation := some ConfirmKind.delete
    candidate := some { item := CandidateItem.order ordA }
    current_op := some "ABC123" }

/-- Witness for C1 at a concrete input: awaiting delete confirmation of
order `ABC123`, reply "sim" — exactly one mutation call, of delete kind. -/
theorem c1_witness :
    stateAwaitingDelete.awaiting_confirmation = some ConfirmKind.delete ∧
    isNo "sim" = false ∧ isYes "sim" = true ∧
    ∃ t, process_input envOk stateAwaitingDelete "sim" = some t ∧
      (t.calls.filter Call.isMutation).map Call.confirmKind = [some ConfirmKind.delete] :=
  ⟨rfl, by decide, by decide,
    c1_at_most_one_mutation_per_confirmation.1 envOk stateAwaitingDelete "sim"
      ConfirmKind.delete rfl (by decide) (by decide) (by decide)
      (fun h => nomatch h) (fun h => nomatch h) (fun _ => rfl) (fun h => nomatch h)⟩

/-- C5 counterexample: in the awaiting-delete state that also holds an
active order reference (`current_op = "ABC123"`), the negative reply "não"
returns to Idle but clears the active order reference as well — the
state-specific payload is not the only thing discarded, contradicting the
claim that unrelated session fields are left unchanged. -/
theorem c5_cancel_clears_active_order_ref :
    stateAwaitingDelete.current_op = some "ABC123" ∧
    ∃ t, process_input envOk stateAwaitingDelete "não" = some t ∧
      t.response = Response.cancelled ∧ t.state.current_op = none :=
  ⟨rfl, ⟨_, rfl, rfl, rfl⟩⟩

/-- C5 (amended): a negative-class reply in any Awaiting* state returns the
session to Idle by resetting the whole orchestrator state to its initial
value — the Candidate/partialRecord is discarded, but so are the pending
parts and the active order reference (`_reset_state` reinstalls the
`__init__` dict).  No external call is issued, so the turn history (which
lives outside the agent state, in the caller) is untouched. -/
theorem c5_amended_cancel_resets_all :
    ∀ (env : Env) (s : AgentState) (msg : String) (k : ConfirmKind),
      s.awaiting_confirmation = some k → isNo msg = true →
      process_input env s msg =
        some { response := Response.cancelled, state := reset_state, calls := [] } := by
  intro env s msg k hk hno
  unfold process_input
  rw [hk]
  unfold handle_confirmation
  rw [hno]
  simp

/-- Witness for C5 (amended) at a concrete input: "não" in the
awaiting-delete state. -/
theorem c5_witness :
    stateAwaitingDelete.awaiting_confirmation = some ConfirmKind.delete ∧
    isNo "não" = true ∧
    process_input envOk stateAwaitingDelete "não" =
      some { response := Response.cancelled, state := reset_state, calls := [] } :=
  ⟨rfl, by decide,
    c5_amended_cancel_resets_all envOk stateAwaitingDelete "não" ConfirmKind.delete
      rfl (by decide)⟩

/-- C6: in every confirmation state, the affirmative and negative keyword
sets are matched case-insensitively as substrings of the lowercased message
(the executable checks agree with substring occurrence on the lowercased
text), and a reply matching neither set re-prompts without changing the
session state, issuing no external call and hence not proceeding with the
pending mutation. -/
theorem c6_confirmation_keyword_matching :
    (∀ msg, isYes msg = true ↔ ∃ k ∈ yesKeywords, k.data <:+: lowerChars msg) ∧
    (∀ msg, isNo msg = true ↔ ∃ k ∈ noKeywords, k.data <:+: lowerChars msg) ∧
    (∀ (env : Env) (s : AgentState) (msg : String) (k : ConfirmKind),
      s.awaiting_confirmation = some k →
      isYes msg = false → isNo msg = false →
      process_input env s msg =
        some { response := Response.confirmAgain, state := s, calls := [] }) := by
  refine ⟨?_, ?_, ?_⟩
  · intro msg
    rw [isYes, List.any_eq_true]
    exact exists_congr (fun k => and_congr Iff.rfl (containsSub_iff msg k))
  · intro msg
    rw [isNo, List.any_eq_true]
    exact exists_congr (fun k => and_congr Iff.rfl (containsSub_iff msg k))
  · intro env s msg k hk hyes hno
    unfold process_input
    rw [hk]
    unfold handle_confirmation
    rw [hno, hyes]
    simp

/-- Witness for C6 at a concrete input: "talvez" contains no affirmative and
no negative keyword and re-prompts in the awaiting-delete state. -/
theorem c6_witness :
    isYes "talvez" = false ∧ isNo "talvez" = false ∧
    process_input envOk stateAwaitingDelete "talvez" =
      some { response := Response.confirmAgain, state := stateAwaitingDelete, calls := [] } :=
  ⟨by decide, by decide,
    c6_confirmation_keyword_matching.2.2 envOk stateAwaitingDelete "talvez"
      ConfirmKind.delete rfl (by decide) (by decide)⟩

/-- Fixture: complete order data for a create confirmation. -/
def dataAcme : Dict :=
  [("nome_cliente", FieldVal.s "Acme"), ("data_entrega", FieldVal.s "2025-06-01")]

/-- Fixture: a session awaiting the create-order confirmation of `dataAcme`. -/
def stateAwaitingCreate : AgentState :=
  { reset_state with
    awaiting_confirmation := some ConfirmKind.order
    current_data := some dataAcme }

/-- Fixture: an agent environment whose create-order call fails with status
500. -/
def envCreateFails : Env :=
  { envEmpty with createOrderRes := some { status_code := 500, text := "boom" } }

/-- C4 counterexample: when the create-order repository call fails, the
pending create confirmation is NOT cleared back to Idle — the state still
awaits the order confirmation after the failing turn, so a later affirmative
would retry the create. -/
theorem c4_create_failure_keeps_pending_state :
    ∃ t, process_input envCreateFails stateAwaitingCreate "sim" = some t ∧
      t.response = Response.createOrderFailed "boom" ∧
      t.state = stateAwaitingCreate ∧
      t.state.awaiting_confirmation = some ConfirmKind.order :=
  ⟨_, rfl, rfl, rfl, rfl⟩

/-- C4 (amended): on a failing repository call during finalization the
orchestrator issues exactly the one failing call (no retry) and returns a
generic failure message; for the delete and update flows the pending state
is cleared back to Idle, but for the create-order and create-parts flows
the failing turn leaves the pending confirmation state unchanged (still
awaiting), so the flow is not abandoned there. -/
theorem c4_amended_failure_semantics :
    (∀ (env : Env) (s : AgentState) (msg : String) (c : Candidate),
      s.awaiting_confirmation = some ConfirmKind.delete →
      s.candidate = some c →
      isNo msg = false → isYes msg = true →
      (∀ r, env.deleteRes = some r → r.status_code ≠ 200) →
      ∃ call, process_input env s msg =
        some { response := Response.deleteFailed, state := reset_state, calls := [call] }) ∧
    (∀ (env : Env) (s : AgentState) (msg : String) (c : Candidate),
      s.awaiting_confirmation = some ConfirmKind.update →
      s.candidate = some c →
      isNo msg = false → isYes msg = true →
      (∀ r, env.updateRes = some r → r.status_code ≠ 200) →
      ∃ call, process_input env s msg =
        some { response := Response.updateFailed, state := reset_state, calls := [call] }) ∧
    (∀ (env : Env) (s : AgentState) (msg : String) (d : Dict),
      s.awaiting_confirmation = some ConfirmKind.order →
      s.current_data = some d →
      isNo msg = false → isYes msg = true →
      (∀ r, env.createOrderRes = some r → r.status_code ≠ 200) →
      ∃ err call, process_input env s msg =
        some { response := Response.createOrderFailed err, state := s, calls := [call] }) ∧
    (∀ (env : Env) (s : AgentState) (msg : String) (op : String) (p : PartDict)
        (ps : List PartDict),
      s.awaiting_confirmation = some ConfirmKind.parts →
      s.current_op = some op → s.pending_parts = p :: ps →
      isNo msg = false → isYes msg = true →
      (∀ r, env.createPartsRes = some r → r.status_code ≠ 200) →
      ∃ err call, process_input env s msg =
        some { response := Response.createPartsFailed err, state := s, calls := [call] }) := by
  have hconf : ∀ (env : Env) (s : AgentState) (msg : String) (k : ConfirmKind),
      s.awaiting_confirmation = some k → isNo msg = false → isYes msg = true →
      process_input env s msg = (match k with
        | ConfirmKind.order => finalize_create_order env s
        | ConfirmKind.parts => some (finalize_create_parts env s)
        | ConfirmKind.delete => some (finalize_delete env s)
        | ConfirmKind.update => some (finalize_update env s)
        | ConfirmKind.postOrderParts =>
          some { response := Response.askParts
                 state := { s with awaiting_confirmation := none }
                 calls := [] }) := by
    intro env s msg k hk hno hyes
    unfold process_input
    rw [hk]
    unfold handle_confirmation
    rw [hno, hyes]
    simp
  refine ⟨?_, ?_, ?_, ?_⟩
  · intro env s msg c hk hc hno hyes hfail
    rw [hconf env s msg ConfirmKind.delete hk hno hyes]
    unfold finalize_delete
    rw [hc]
    cases hres : env.deleteRes with
    | none => exact ⟨_, rfl⟩
    | some r =>
      have : (r.status_code == 200) = false := by
        simp [hfail r hres]
      simp only [this, if_false]
      exact ⟨_, rfl⟩
  · intro env s msg c hk hc hno hyes hfail
    rw [hconf env s msg ConfirmKind.update hk hno hyes]
    unfold finalize_update
    rw [hc]
    cases hres : env.updateRes with
    | none => exact ⟨_, rfl⟩
    | some r =>
      have : (r.status_code == 200) = false := by
        simp [hfail r hres]
      simp only [this, if_false]
      exact ⟨_, rfl⟩
  · intro env s msg d hk hd hno hyes hfail
    rw [hconf env s msg ConfirmKind.order hk hno hyes]
    unfold finalize_create_order
    rw [hd]
    cases hres : env.createOrderRes with
    | none => exact ⟨_, _, rfl⟩
    | some r =>
      have : (r.status_code == 200) = false := by
        simp [hfail r hres]
      simp only [this, if_false]
      exact ⟨_, _, rfl⟩
  · intro env s msg op p ps hk hop hps hno hyes hfail
    rw [hconf env s msg ConfirmKind.parts hk hno hyes]
    unfold finalize_create_parts
    rw [hop, hps]
    cases hres : env.createPartsRes with
    | none => exact ⟨_, _, rfl⟩
    | some r =>
      have : (r.status_code == 200) = false := by
        simp [hfail r hres]
      simp only [this, if_false]
      exact ⟨_, _, rfl⟩

/-- Witness for C4 (amended) at a concrete input: the failing create of
`stateAwaitingCreate` leaves the state pending, with exactly one call. -/
theorem c4_witness :
    stateAwaitingCreate.awaiting_confirmation = some ConfirmKind.order ∧
    (∀ r, envCreateFails.createOrderRes = some r → r.status_code ≠ 200) ∧
    ∃ err call, process_input envCreateFails stateAwaitingCreate "sim" =
      some { response := Response.createOrderFailed err, state := stateAwaitingCreate
             calls := [call] } :=
  ⟨rfl, by decide,
    c4_amended_failure_semantics.2.2.1 envCreateFails stateAwaitingCreate "sim" dataAcme
      rfl rfl (by decide) (by decide) (by decide)⟩

/-- Fixture: an extraction for a partial order turn that mentions only the
delivery date — the previously stored client name is absent from its
`data`. -/
def exOrderPartial : Extraction :=
  { is_order_intent := true
    data := some [("data_entrega", FieldVal.s "2025-06-01")]
    missing_fields := ["nome_cliente"] }

/-- Fixture: environment returning `exOrderPartial`. -/
def envC7 : Env := { envEmpty with extract := some exOrderPartial }

/-- Fixture: an Idle session whose stored partial record already holds the
client name. -/
def stateWithClient : AgentState :=
  { reset_state with current_data := some [("nome_cliente", FieldVal.s "Acme")] }

/-- C7 counterexample: the stored partial record held
`nome_cliente = "Acme"`; the next turn's extraction carries only
`data_entrega`, and after the turn the stored record is exactly the new
extraction — the previously set `nome_cliente` is gone, not retained as the
claim requires. -/
theorem c7_partial_record_field_dropped :
    dictGet (stateWithClient.current_data.getD []) "nome_cliente" =
      some (FieldVal.s "Acme") ∧
    ∃ t, process_input envC7 stateWithClient "entrega 2025-06-01" = some t ∧
      t.state.current_data = some [("data_entrega", FieldVal.s "2025-06-01")] ∧
      dictGet (t.state.current_data.getD []) "nome_cliente" = none :=
  ⟨rfl, ⟨_, rfl, rfl, rfl⟩⟩

/-- C7 (amended): on an order-intent turn the orchestrator stores the
extraction's `data` wholesale as the new partial record — a field present in
the new extraction is stored, and a field set in an earlier turn but absent
from the new extraction is dropped from the orchestrator's stored record.
Field retention across turns is delegated to the external extractor, which
receives the previous partial record and the history in its prompt. -/
theorem c7_amended_partial_record_replaced :
    ∀ (env : Env) (s : AgentState) (msg : String) (ex : Extraction) (d : Dict),
      s.awaiting_confirmation = none → s.partial_update = none →
      env.extract = some ex → ex.is_order_intent = true → ex.data = some d →
      ∃ t, process_input env s msg = some t ∧ t.state.current_data = some d := by
  intro env s msg ex d hk hpu hex hflag hd
  unfold process_input
  rw [hk]
  simp only [hpu, Option.isSome_none, Bool.false_eq_true, if_false]
  rw [hex]
  simp only [hflag, if_true]
  unfold withExtract handle_order_intent
  by_cases hm : ex.missing_fields.isEmpty
  · simp only [hm, if_true, hd]
    exact ⟨_, rfl, rfl⟩
  · simp only [hm, if_false]
    exact ⟨_, rfl, by simp [hd]⟩

/-- Witness for C7 (amended) at a concrete input: the stored record after
the `envC7` turn is exactly the new extraction's `data`. -/
theorem c7_witness :
    stateWithClient.awaiting_confirmation = none ∧
    exOrderPartial.data = some [("data_entrega", FieldVal.s "2025-06-01")] ∧
    ∃ t, process_input envC7 stateWithClient "entrega 2025-06-01" = some t ∧
      t.state.current_data = some [("data_entrega", FieldVal.s "2025-06-01")] :=
  ⟨rfl, rfl,
    c7_amended_partial_record_replaced envC7 stateWithClient "entrega 2025-06-01"
      exOrderPartial [("data_entrega", FieldVal.s "2025-06-01")] rfl rfl rfl rfl rfl⟩

/-- Fixture: an extraction where both the delete flag and the
order-creation flag are set — the multi-flag case the priority order is
supposed to resolve. -/
def exOrderAndDelete : Extraction :=
  { is_order_intent := true
    is_delete_intent := true
    delete_target := some "order"
    delete_query := some "ABC123"
    data := some [("nome_cliente", FieldVal.s "Acme")]
    missing_fields := [] }

/-- Fixture: environment returning `exOrderAndDelete`, with a delete search
that would find order `ABC123`. -/
def envC3 : Env :=
  { envEmpty with
    extract := some exOrderAndDelete
    searchOrders := fun _ => [ordA] }

/-- C3 counterexample: with both the delete and the order-creation flag set
in an Idle session, the claimed priority (delete first) would run the delete
search and move to the delete confirmation; the agent instead handles the
order-creation intent — it moves to the create confirmation, stores no
delete candidate, and issues no search call at all. -/
theorem c3_priority_counterexample :
    exOrderAndDelete.is_delete_intent = true ∧
    exOrderAndDelete.is_order_intent = true ∧
    ∃ t, process_input envC3 reset_state "m" = some t ∧
      t.state.awaiting_confirmation = some ConfirmKind.order ∧
      t.state.candidate = none ∧
      t.calls = [Call.extractCall "m"] :=
  ⟨rfl, rfl, ⟨_, rfl, rfl, rfl, rfl⟩⟩

/-- C3 (amended): in an Idle session `ProductionAgent.process_input`
dispatches on exactly one intent by the fixed priority order
order-creation > search > delete > update > add-parts (first set flag in
that order wins), falling back to the generic conversational response only
when no flag is set. -/
theorem c3_amended_dispatch_priority :
    ∀ (env : Env) (s : AgentState) (msg : String) (ex : Extraction),
      s.awaiting_confirmation = none → s.partial_update = none →
      env.extract = some ex →
      ((ex.is_order_intent = true →
        process_input env s msg = withExtract msg (handle_order_intent ex s)) ∧
       (ex.is_order_intent = false → ex.is_search_intent = true →
        process_input env s msg = withExtract msg (some (handle_search_intent env ex s))) ∧
       (ex.is_order_intent = false → ex.is_search_intent = false →
        ex.is_delete_intent = true →
        process_input env s msg = withExtract msg (handle_delete_intent env ex s)) ∧
       (ex.is_order_intent = false → ex.is_search_intent = false →
        ex.is_delete_intent = false → ex.is_update_intent = true →
        process_input env s msg = withExtract msg (handle_update_intent env ex s)) ∧
       (ex.is_order_intent = false → ex.is_search_intent = false →
        ex.is_delete_intent = false → ex.is_update_intent = false →
        ex.is_add_part_intent = true →
        process_input env s msg = withExtract msg (some (handle_add_part_intent ex s))) ∧
       (ex.is_order_intent = false → ex.is_search_intent = false →
        ex.is_delete_intent = false → ex.is_update_intent = false →
        ex.is_add_part_intent = false →
        process_input env s msg =
          some { response := Response.chatReply, state := s
                 calls := [Call.extractCall msg, Call.chatCall msg] })) := by
  intro env s msg ex hk hpu hex
  have hbase : process_input env s msg =
      (if ex.is_order_intent then withExtract msg (handle_order_intent ex s)
       else if ex.is_search_intent then withExtract msg (some (handle_search_intent env ex s))
       else if ex.is_delete_intent then withExtract msg (handle_delete_intent env ex s)
       else if ex.is_update_intent then withExtract msg (handle_update_intent env ex s)
       else if ex.is_add_part_intent then withExtract msg (some (handle_add_part_intent ex s))
       else some { response := Response.chatReply, state := s
                   calls := [Call.extractCall msg, Call.chatCall msg] }) := by
    unfold process_input
    rw [hk]
    simp only [hpu, Option.isSome_none, Bool.false_eq_true, if_false]
    rw [hex]
  refine ⟨?_, ?_, ?_, ?_, ?_, ?_⟩
  · intro h1; rw [hbase]; simp [h1]
  · intro h1 h2; rw [hbase]; simp [h1, h2]
  · intro h1 h2 h3; rw [hbase]; simp [h1, h2, h3]
  · intro h1 h2 h3 h4; rw [hbase]; simp [h1, h2, h3, h4]
  · intro h1 h2 h3 h4 h5; rw [hbase]; simp [h1, h2, h3, h4, h5]
  · intro h1 h2 h3 h4 h5; rw [hbase]; simp [h1, h2, h3, h4, h5]

/-- Witness for C3 (amended) at a concrete input: the multi-flag extraction
`exOrderAndDelete` is routed to the order-creation handler. -/
theorem c3_witness :
    exOrderAndDelete.is_order_intent = true ∧
    process_input envC3 reset_state "m" =
      withExtract "m" (handle_order_intent exOrderAndDelete reset_state) :=
  ⟨rfl, (c3_amended_dispatch_priority envC3 reset_state "m" exOrderAndDelete
    rfl rfl rfl).1 rfl⟩

/-- Helper: `_finalize_create_order` never calls the extractor. -/
theorem finalize_create_order_no_extract (env : Env) (s : AgentState) (t : TurnResult)
    (h : finalize_create_order env s = some t) : t.calls.filter Call.isExtract = [] := by
  cases hd : s.current_data with
  | none =>
    unfold finalize_create_order at h
    rw [hd] at h
    exact Option.noConfusion h
  | some d =>
    obtain ⟨t', ht', hc⟩ := finalize_create_order_calls env s d hd
    rw [ht'] at h
    cases h
    rw [hc]
    rfl

/-- Helper: `_finalize_create_parts` never calls the extractor. -/
theorem finalize_create_parts_no_extract (env : Env) (s : AgentState) :
    (finalize_create_parts env s).calls.filter Call.isExtract = [] := by
  unfold finalize_create_parts
  split
  · split
    · split <;> rfl
    · rfl
  · rfl

/-- Helper: `_finalize_delete` never calls the extractor. -/
theorem finalize_delete_no_extract (env : Env) (s : AgentState) :
    (finalize_delete env s).calls.filter Call.isExtract = [] := by
  cases hc : s.candidate with
  | none =>
    unfold finalize_delete
    rw [hc]
    rfl
  | some c =>
    rw [finalize_delete_calls env s c hc]
    cases c.item <;> rfl

/-- Helper: `_finalize_update` never calls the extractor. -/
theorem finalize_update_no_extract (env : Env) (s : AgentState) :
    (finalize_update env s).calls.filter Call.isExtract = [] := by
  cases hc : s.candidate with
  | none =>
    unfold finalize_update
    rw [hc]
    rfl
  | some c =>
    rw [finalize_update_calls env s c hc]
    cases c.item <;> rfl

/-- Helper: the confirmation handler interprets the reply by keyword
matching only — it never calls the extractor. -/
theorem handle_confirmation_no_extract (env : Env) (s : AgentState) (msg : String)
    (k : ConfirmKind) (t : TurnResult) (h : handle_confirmation env s msg k = some t) :
    t.calls.filter Call.isExtract = [] := by
  unfold handle_confirmation at h
  cases hno : isNo msg with
  | true =>
    simp only [hno, if_true] at h
    cases h
    rfl
  | false =>
    simp only [hno, Bool.false_eq_true, if_false] at h
    cases hyes : isYes msg with
    | false =>
      simp only [hyes, Bool.not_false, if_true] at h
      cases h
      rfl
    | true =>
      simp only [hyes, Bool.not_true, Bool.false_eq_true, if_false] at h
      cases k with
      | order => exact finalize_create_order_no_extract env s t h
      | parts => cases h; exact finalize_create_parts_no_extract env s
      | delete => cases h; exact finalize_delete_no_extract env s
      | update => cases h; exact finalize_update_no_extract env s
      | postOrderParts => cases h; rfl

/-- Helper: the update handler (also entered from the pending-value path)
never calls the extractor. -/
theorem handle_update_intent_no_extract (env : Env) (ex : Extraction) (s : AgentState)
    (t : TurnResult) (h : handle_update_intent env ex s = some t) :
    t.calls.filter Call.isExtract = [] := by
  have hcalls : ∀ (b1 b2 : Bool) (q : Option String),
      ((if b1 = true then [Call.searchOrdersCall q] else []) ++
        (if b2 = true then [Call.searchPartsCall q] else [])).filter Call.isExtract = [] := by
    intro b1 b2 q
    cases b1 <;> cases b2 <;> simp [Call.isExtract]
  unfold handle_update_intent at h
  cases hmv : ex.missing_update_value with
  | some f =>
    simp only [hmv] at h
    cases h
    rfl
  | none =>
    simp only [hmv] at h
    generalize hC : (if (ex.update_target == some "order" || ex.update_target == some "any") = true
        then [Call.searchOrdersCall ex.update_query] else []) ++
        (if (ex.update_target == some "part" || ex.update_target == some "any") = true
        then [Call.searchPartsCall ex.update_query] else []) = cs at h
    generalize (if (ex.update_target == some "order" || ex.update_target == some "any") = true
        then env.searchOrders ex.update_query else []) = axs at h
    generalize (if (ex.update_target == some "part" || ex.update_target == some "any") = true
        then env.searchParts ex.update_query else []) = pxs at h
    have hcs : cs.filter Call.isExtract = [] := by rw [← hC]; exact hcalls _ _ _
    split at h
    · cases axs with
      | cons o os => cases h; exact hcs
      | nil =>
        cases pxs with
        | cons p ps => cases h; exact hcs
        | nil => exact Option.noConfusion h
    · split at h
      · cases h; exact hcs
      · cases h; exact hcs

/-- Helper: the pending-value (AwaitingPartialUpdateValue) path treats the
raw message as a literal value and never calls the extractor. -/
theorem handle_partial_update_no_extract (env : Env) (s : AgentState) (msg : String)
    (t : TurnResult) (h : handle_partial_update env s msg = some t) :
    t.calls.filter Call.isExtract = [] := by
  unfold handle_partial_update at h
  cases hpu : s.partial_update with
  | none => rw [hpu] at h; exact Option.noConfusion h
  | some pu =>
    rw [hpu] at h
    exact handle_update_intent_no_extract _ _ _ _ h

/-- Helper: any outcome of a `/chat` branch, once prefixed, carries the
extraction call in its trace. -/
theorem withExtractApi_mem (msg : String) (r : Option Api.ApiTurn) (t : Api.ApiTurn)
    (h : Api.withExtractApi msg r = some t) : Api.ApiCall.extract msg ∈ t.calls := by
  unfold Api.withExtractApi at h
  cases r with
  | none => exact Option.noConfusion h
  | some t0 =>
    simp only [Option.map_some'] at h
    cases h
    exact List.mem_cons_self _ _

/-- Fixture: an extraction carrying only the delete flag (as the extractor
is prompted to produce for a "sim" reply to a delete confirmation). -/
def exDeleteFlag : Extraction :=
  { is_delete_intent := true, delete_target := some "part", delete_query := some "niple" }

/-- Fixture: an endpoint environment returning `exDeleteFlag`, with an empty
repository. -/
def apiEnvDelete : Api.ApiEnv :=
  { extract := some exDeleteFlag
    ordersFullText := fun _ => []
    partsFullText := fun _ => []
    ordersByCodes := fun _ => []
    ordersCodeOrClient := fun _ => []
    partsByIds := fun _ => []
    partsByNames := fun _ => []
    ordersCodeOrClientOp := fun _ _ => []
    partById := fun _ => []
    partsByName := fun _ _ => []
    orderByCode := fun _ => []
    partIdsByOp := fun _ => []
    isUUID := fun _ => false
    normalize := fun s => s
    genCode := "XYZ789"
    today := "2025-01-01" }

/-- Fixture: an endpoint session awaiting the delete confirmation of part
`partA`. -/
def apiStateAwaitingDelete : Api.ApiState :=
  { awaiting_delete_confirmation := true
    delete_candidate := some { item := CandidateItem.part partA } }

/-- C2 counterexample: the `/chat` endpoint runs intent extraction on the
raw message even though the session is in the awaiting-delete state — the
extraction call is in the turn's trace, contradicting the claim that no
extraction happens outside Idle. -/
theorem c2_endpoint_extracts_in_awaiting_state :
    apiStateAwaitingDelete.awaiting_delete_confirmation = true ∧
    ∃ t, Api.chat_endpoint apiEnvDelete apiStateAwaitingDelete "sim" = some t ∧
      Api.ApiCall.extract "sim" ∈ t.calls :=
  ⟨rfl, ⟨_, rfl, by decide⟩⟩

/-- C2 (amended): the `ProductionAgent` orchestrator never calls the
extractor while a confirmation or a pending partial update is active (it
interprets the reply by keyword matching or literal value capture only);
the `/chat` endpoint, by contrast, runs intent extraction on every raw
message — including in Awaiting* states — and only then applies keyword
matching inside the branch the extraction selects. -/
theorem c2_amended_extraction_short_circuit :
    (∀ (env : Env) (s : AgentState) (msg : String) (t : TurnResult),
      (s.awaiting_confirmation.isSome ∨ s.partial_update.isSome) →
      process_input env s msg = some t →
      t.calls.filter Call.isExtract = []) ∧
    (∀ (env : Api.ApiEnv) (st : Api.ApiState) (msg : String) (t : Api.ApiTurn),
      Api.chat_endpoint env st msg = some t →
      Api.ApiCall.extract msg ∈ t.calls) := by
  constructor
  · intro env s msg t hst h
    cases hA : s.awaiting_confirmation with
    | some k =>
      have hpi : process_input env s msg = handle_confirmation env s msg k := by
        unfold process_input; rw [hA]
      rw [hpi] at h
      exact handle_confirmation_no_extract env s msg k t h
    | none =>
      rcases hst with hA' | hP
      · rw [hA] at hA'; exact absurd hA' (by simp)
      · unfold process_input at h
        rw [hA] at h
        simp only [hP, if_true] at h
        exact handle_partial_update_no_extract env s msg t h
  · intro env st msg t h
    unfold Api.chat_endpoint at h
    cases hex : env.extract with
    | none =>
      rw [hex] at h
      cases h
      exact List.mem_cons_self _ _
    | some ex =>
      rw [hex] at h
      cases h1 : ex.is_search_intent with
      | true =>
        simp only [h1, if_true] at h
        exact withExtractApi_mem msg _ t h
      | false =>
        simp only [h1, Bool.false_eq_true, if_false] at h
        cases h2 : ex.is_delete_intent with
        | true =>
          simp only [h2, if_true] at h
          exact withExtractApi_mem msg _ t h
        | false =>
          simp only [h2, Bool.false_eq_true, if_false] at h
          cases h3 : ex.is_order_intent with
          | true =>
            simp only [h3, if_true] at h
            exact withExtractApi_mem msg _ t h
          | false =>
            simp only [h3, Bool.false_eq_true, if_false] at h
            cases h4 : ex.is_add_part_intent with
            | true =>
              simp only [h4, if_true] at h
              exact withExtractApi_mem msg _ t h
            | false =>
              simp only [h4, Bool.false_eq_true, if_false] at h
              cases h5 : ex.is_update_intent with
              | true =>
                simp only [h5, if_true] at h
                exact withExtractApi_mem msg _ t h
              | false =>
                simp only [h5, Bool.false_eq_true, if_false] at h
                cases h
                exact List.mem_cons_self _ _

/-- Witness for C2 (amended) at a concrete input: "sim" in the
awaiting-delete agent state runs without any extraction call. -/
theorem c2_witness :
    (stateAwaitingDelete.awaiting_confirmation.isSome ∨
      stateAwaitingDelete.partial_update.isSome) ∧
    ∃ t, process_input envOk stateAwaitingDelete "sim" = some t ∧
      t.calls.filter Call.isExtract = [] := by
  refine ⟨Or.inl (by decide), ⟨_, rfl, ?_⟩⟩
  exact c2_amended_extraction_short_circuit.1 envOk stateAwaitingDelete "sim" _
    (Or.inl (by decide)) rfl

/-- Helper: the Idle dispatch routes a delete-flagged extraction (with the
higher-priority flags unset) to the delete handler. -/
theorem process_input_delete_path (env : Env) (s : AgentState) (msg : String)
    (ex : Extraction) (hk : s.awaiting_confirmation = none)
    (hpu : s.partial_update = none) (hex : env.extract = some ex)
    (h1 : ex.is_order_intent = false) (h2 : ex.is_search_intent = false)
    (h3 : ex.is_delete_intent = true) :
    process_input env s msg = withExtract msg (handle_delete_intent env ex s) := by
  unfold process_input
  rw [hk]
  simp only [hpu, Option.isSome_none, Bool.false_eq_true, if_false]
  rw [hex]
  simp [h1, h2, h3]

/-- Helper: the Idle dispatch routes an update-flagged extraction (with the
higher-priority flags unset) to the update handler. -/
theorem process_input_update_path (env : Env) (s : AgentState) (msg : String)
    (ex : Extraction) (hk : s.awaiting_confirmation = none)
    (hpu : s.partial_update = none) (hex : env.extract = some ex)
    (h1 : ex.is_order_intent = false) (h2 : ex.is_search_intent = false)
    (h3 : ex.is_delete_intent = false) (h4 : ex.is_update_intent = true) :
    process_input env s msg = withExtract msg (handle_update_intent env ex s) := by
  unfold process_input
  rw [hk]
  simp only [hpu, Option.isSome_none, Bool.false_eq_true, if_false]
  rw [hex]
  simp [h1, h2, h3, h4]

/-- C8: delete and update disambiguation over a fixed repository result
(target "any", both kinds searched): zero matches yields the not-found
response with the session state unchanged and no Candidate stored; exactly
one match across both kinds stores that record as the Candidate and moves to
the matching Awaiting*Confirmation state; and a mixed multi-match (at least
one order and at least one part) refuses to proceed with the
be-more-specific response and stores no Candidate. -/
theorem c8_disambiguation_determinism :
    (∀ (env : Env) (s : AgentState) (msg : String) (ex : Extraction),
      s.awaiting_confirmation = none → s.partial_update = none →
      env.extract = some ex →
      ex.is_order_intent = false → ex.is_search_intent = false →
      ex.is_delete_intent = true → ex.delete_target = some "any" →
      ((env.searchOrders ex.delete_query = [] → env.searchParts ex.delete_query = [] →
        process_input env s msg = some
          { response := Response.deleteNotFound ex.delete_query
            state := s
            calls := [Call.extractCall msg, Call.searchOrdersCall ex.delete_query,
                      Call.searchPartsCall ex.delete_query] }) ∧
       (∀ o, env.searchOrders ex.delete_query = [o] → env.searchParts ex.delete_query = [] →
        process_input env s msg = some
          { response := Response.deleteConfirmation "Pedido" o.codigo_op
              ("Cliente: " ++ o.nome_cliente)
            state := { s with candidate := some { item := CandidateItem.order o }
                              awaiting_confirmation := some ConfirmKind.delete }
            calls := [Call.extractCall msg, Call.searchOrdersCall ex.delete_query,
                      Call.searchPartsCall ex.delete_query] }) ∧
       (∀ p, env.searchOrders ex.delete_query = [] → env.searchParts ex.delete_query = [p] →
        process_input env s msg = some
          { response := Response.deleteConfirmation "Peça" p.nome_peca
              ("OP: " ++ p.codigo_op)
            state := { s with candidate := some { item := CandidateItem.part p }
                              awaiting_confirmation := some ConfirmKind.delete }
            calls := [Call.extractCall msg, Call.searchOrdersCall ex.delete_query,
                      Call.searchPartsCall ex.delete_query] }) ∧
       (∀ o os p ps, env.searchOrders ex.delete_query = o :: os →
        env.searchParts ex.delete_query = p :: ps →
        process_input env s msg = some
          { response := Response.tooMany ((o :: os).length + (p :: ps).length)
            state := s
            calls := [Call.extractCall msg, Call.searchOrdersCall ex.delete_query,
                      Call.searchPartsCall ex.delete_query] }))) ∧
    (∀ (env : Env) (s : AgentState) (msg : String) (ex : Extraction),
      s.awaiting_confirmation = none → s.partial_update = none →
      env.extract = some ex →
      ex.is_order_intent = false → ex.is_search_intent = false →
      ex.is_delete_intent = false → ex.is_update_intent = true →
      ex.update_target = some "any" → ex.missing_update_value = none →
      ((env.searchOrders ex.update_query = [] → env.searchParts ex.update_query = [] →
        process_input env s msg = some
          { response := Response.updateNotFound ex.update_query
            state := s
            calls := [Call.extractCall msg, Call.searchOrdersCall ex.update_query,
                      Call.searchPartsCall ex.update_query] }) ∧
       (∀ o, env.searchOrders ex.update_query = [o] → env.searchParts ex.update_query = [] →
        process_input env s msg = some
          { response := Response.updateConfirmation "Pedido" o.codigo_op ex.update_fields
            state := { s with
              candidate := some { item := CandidateItem.order o, fields := ex.update_fields }
              awaiting_confirmation := some ConfirmKind.update }
            calls := [Call.extractCall msg, Call.searchOrdersCall ex.update_query,
                      Call.searchPartsCall ex.update_query] }) ∧
       (∀ p, env.searchOrders ex.update_query = [] → env.searchParts ex.update_query = [p] →
        process_input env s msg = some
          { response := Response.updateConfirmation "Peça" p.nome_peca ex.update_fields
            state := { s with
              candidate := some { item := CandidateItem.part p, fields := ex.update_fields }
              awaiting_confirmation := some ConfirmKind.update }
            calls := [Call.extractCall msg, Call.searchOrdersCall ex.update_query,
                      Call.searchPartsCall ex.update_query] }) ∧
       (∀ o os p ps, env.searchOrders ex.update_query = o :: os →
        env.searchParts ex.update_query = p :: ps →
        process_input env s msg = some
          { response := Response.tooMany ((o :: os).length + (p :: ps).length)
            state := s
            calls := [Call.extractCall msg, Call.searchOrdersCall ex.update_query,
                      Call.searchPartsCall ex.update_query] }))) := by
  constructor
  · intro env s msg ex hk hpu hex h1 h2 h3 hT
    have hbase := process_input_delete_path env s msg ex hk hpu hex h1 h2 h3
    refine ⟨?_, ?_, ?_, ?_⟩
    · intro ho hp
      rw [hbase]
      unfold handle_delete_intent
      rw [hT]
      simp only []
      rw [ho, hp]
      rfl
    · intro o ho hp
      rw [hbase]
      unfold handle_delete_intent
      rw [hT]
      simp only []
      rw [ho, hp]
      rfl
    · intro p ho hp
      rw [hbase]
      unfold handle_delete_intent
      rw [hT]
      simp only []
      rw [ho, hp]
      rfl
    · intro o os p ps ho hp
      rw [hbase]
      unfold handle_delete_intent
      rw [hT]
      have hcO : ((some "any" : Option String) == some "order" ||
          (some "any" : Option String) == some "any") = true := rfl
      have hcP : ((some "any" : Option String) == some "part" ||
          (some "any" : Option String) == some "any") = true := rfl
      simp only [hcO, hcP, if_true]
      rw [ho, hp]
      have hz : ((o :: os).length + (p :: ps).length == 0) = false := by
        simp
      have h1' : ((o :: os).length + (p :: ps).length == 1) = false := by
        simp only [List.length_cons, beq_eq_false_iff_ne, ne_eq]
        omega
      simp only [hz, h1', Bool.false_eq_true, if_false]
      rfl
  · intro env s msg ex hk hpu hex h1 h2 h3 h4 hT hmv
    have hbase := process_input_update_path env s msg ex hk hpu hex h1 h2 h3 h4
    refine ⟨?_, ?_, ?_, ?_⟩
    · intro ho hp
      rw [hbase]
      unfold handle_update_intent
      rw [hmv, hT]
      simp only []
      rw [ho, hp]
      rfl
    · intro o ho hp
      rw [hbase]
      unfold handle_update_intent
      rw [hmv, hT]
      simp only []
      rw [ho, hp]
      rfl
    · intro p ho hp
      rw [hbase]
      unfold handle_update_intent
      rw [hmv, hT]
      simp only []
      rw [ho, hp]
      rfl
    · intro o os p ps ho hp
      rw [hbase]
      unfold handle_update_intent
      rw [hmv, hT]
      have hcO : ((some "any" : Option String) == some "order" ||
          (some "any" : Option String) == some "any") = true := rfl
      have hcP : ((some "any" : Option String) == some "part" ||
          (some "any" : Option String) == some "any") = true := rfl
      simp only [hcO, hcP, if_true]
      rw [ho, hp]
      have h1' : ((o :: os).length + (p :: ps).length == 1) = false := by
        simp only [List.length_cons, beq_eq_false_iff_ne, ne_eq]
        omega
      have hz : ((o :: os).length + (p :: ps).length == 0) = false := by
        simp
      simp only [h1', hz, Bool.false_eq_true, if_false]
      rfl

/-- Fixture: the single-match delete disambiguation environment. -/
def exDeleteAny : Extraction :=
  { is_delete_intent := true, delete_target := some "any", delete_query := some "niple" }

/-- Fixture: environment where the delete search finds exactly the part
`partA`. -/
def envC8 : Env :=
  { envEmpty with extract := some exDeleteAny, searchParts := fun _ => [partA] }

/-- Witness for C8 at a concrete input: exactly one match (a part) yields
that part as the Candidate and the awaiting-delete state. -/
theorem c8_witness :
    exDeleteAny.delete_target = some "any" ∧
    envC8.searchOrders exDeleteAny.delete_query = [] ∧
    envC8.searchParts exDeleteAny.delete_query = [partA] ∧
    process_input envC8 reset_state "delete niple" = some
      { response := Response.deleteConfirmation "Peça" partA.nome_peca
          ("OP: " ++ partA.codigo_op)
        state := { reset_state with candidate := some { item := CandidateItem.part partA }
                                    awaiting_confirmation := some ConfirmKind.delete }
        calls := [Call.extractCall "delete niple",
                  Call.searchOrdersCall exDeleteAny.delete_query,
                  Call.searchPartsCall exDeleteAny.delete_query] } :=
  ⟨rfl, rfl, rfl,
    (c8_disambiguation_determinism.1 envC8 reset_state "delete niple" exDeleteAny
      rfl rfl rfl rfl rfl rfl rfl).2.2.1 partA rfl rfl⟩

/-- C9: the REST order-deletion endpoint issues the dependent deletions (the
parts' status history when parts exist, the order's alerts, the order's
parts) strictly before deleting the order row itself — the filtered
partition shows every `ordem_pedido` delete is at the end of the trace —
and the part-deletion endpoint deletes the part's history before the part. -/
theorem c9_delete_dependency_order :
    ∀ (env : Api.DbEnv) (op pid : String),
      ((Api.delete_order env op).filter (fun c => !c.isOrderRowDelete) ++
        (Api.delete_order env op).filter (fun c => c.isOrderRowDelete) =
        Api.delete_order env op) ∧
      ((Api.delete_order env op).filter (fun c => c.isOrderRowDelete) =
        [Api.SupaCall.deleteOrderByCode op]) ∧
      Api.SupaCall.deleteAlertsByOp op ∈ Api.delete_order env op ∧
      Api.SupaCall.deletePartsByOp op ∈ Api.delete_order env op ∧
      (env.partIdsByOp op ≠ [] →
        Api.SupaCall.deleteHistoryByPartIds (env.partIdsByOp op) ∈ Api.delete_order env op) ∧
      Api.delete_part pid =
        [Api.SupaCall.deleteHistoryByPartId pid, Api.SupaCall.deletePartById pid] := by
  intro env op pid
  unfold Api.delete_order Api.delete_part
  by_cases h : (env.partIdsByOp op).isEmpty
  · have h' : env.partIdsByOp op = [] := List.isEmpty_iff.mp h
    simp [h, h', Api.SupaCall.isOrderRowDelete]
  · simp [h, Api.SupaCall.isOrderRowDelete]

/-- Fixture: a repository where every order has the single part `pid-1`. -/
def dbEnvW : Api.DbEnv := { partIdsByOp := fun _ => ["pid-1"] }

/-- Witness for C9 at a concrete input: order `ABC123` with one part — the
history deletion is issued (and, by the theorem, before the order delete). -/
theorem c9_witness :
    dbEnvW.partIdsByOp "ABC123" ≠ [] ∧
    Api.SupaCall.deleteHistoryByPartIds (dbEnvW.partIdsByOp "ABC123") ∈
      Api.delete_order dbEnvW "ABC123" :=
  ⟨by decide, (c9_delete_dependency_order dbEnvW "ABC123" "pid-1").2.2.2.2.1 (by decide)⟩

/-- Helper: the endpoint routes a delete-flagged extraction (search flag
unset) to the delete branch. -/
theorem chat_endpoint_delete_path (env : Api.ApiEnv) (st : Api.ApiState) (msg : String)
    (ex : Extraction) (hex : env.extract = some ex)
    (h1 : ex.is_search_intent = false) (h2 : ex.is_delete_intent = true) :
    Api.chat_endpoint env st msg = Api.withExtractApi msg (Api.deleteBranch env st msg ex) := by
  unfold Api.chat_endpoint
  rw [hex]
  simp [h1, h2]

/-- Helper: the endpoint routes an update-flagged extraction (all
earlier-checked flags unset) to the update branch. -/
theorem chat_endpoint_update_path (env : Api.ApiEnv) (st : Api.ApiState) (msg : String)
    (ex : Extraction) (hex : env.extract = some ex)
    (h1 : ex.is_search_intent = false) (h2 : ex.is_delete_intent = false)
    (h3 : ex.is_order_intent = false) (h4 : ex.is_add_part_intent = false)
    (h5 : ex.is_update_intent = true) :
    Api.chat_endpoint env st msg = Api.withExtractApi msg (Api.updateBranch env st msg ex) := by
  unfold Api.chat_endpoint
  rw [hex]
  simp [h1, h2, h3, h4, h5]

/-- C10: in the chat endpoint, a reply handled while a delete or update
confirmation is pending is classified affirmative iff its lowercased text
contains one of the substrings "sim", "s", "yes", "confirm"; in particular
"desista" (which contains "s") counts as affirmative and triggers the
pending mutation, and every reply matching none of the substrings is
treated as a cancellation with no mutation issued. -/
theorem c10_endpoint_affirmative_substring :
    (∀ msg, Api.apiIsAffirmative msg = true ↔
      ∃ k ∈ (["sim", "s", "yes", "confirm"] : List String), k.data <:+: lowerChars msg) ∧
    Api.apiIsAffirmative "desista" = true ∧
    (∀ (env : Api.ApiEnv) (st : Api.ApiState) (msg : String) (ex : Extraction) (c : Candidate),
      env.extract = some ex → ex.is_search_intent = false → ex.is_delete_intent = true →
      st.awaiting_delete_confirmation = true →
      st.delete_candidates = [] → st.delete_candidate = some c →
      ((Api.apiIsAffirmative msg = true →
        ∃ t, Api.chat_endpoint env st msg = some t ∧
          (match c.item with
           | CandidateItem.order o =>
             Api.ApiCall.supa (Api.SupaCall.deleteOrderByCode o.codigo_op) ∈ t.calls
           | CandidateItem.part p =>
             Api.ApiCall.supa (Api.SupaCall.deletePartById p.id_peca) ∈ t.calls)) ∧
       (Api.apiIsAffirmative msg = false →
        ∃ t, Api.chat_endpoint env st msg = some t ∧
          t.calls.filter Api.ApiCall.isMutation = [] ∧
          t.response = Api.ApiResponse.generated Api.GenTag.deleteCancelled ∧
          t.ctx = some (Api.NewContext.dict [])))) ∧
    (∀ (env : Api.ApiEnv) (st : Api.ApiState) (msg : String) (ex : Extraction) (c : Candidate),
      env.extract = some ex → ex.is_search_intent = false → ex.is_delete_intent = false →
      ex.is_order_intent = false → ex.is_add_part_intent = false →
      ex.is_update_intent = true →
      st.awaiting_update_confirmation = true → st.update_candidate = some c →
      ((Api.apiIsAffirmative msg = true →
        ∃ t, Api.chat_endpoint env st msg = some t ∧
          (match c.item with
           | CandidateItem.order o =>
             Api.ApiCall.supa (Api.SupaCall.updateOrderByCode o.codigo_op c.fields) ∈ t.calls
           | CandidateItem.part p =>
             Api.ApiCall.supa (Api.SupaCall.updatePartById p.id_peca c.fields) ∈ t.calls)) ∧
       (Api.apiIsAffirmative msg = false →
        ∃ t, Api.chat_endpoint env st msg = some t ∧
          t.calls.filter Api.ApiCall.isMutation = [] ∧
          t.response = Api.ApiResponse.generated Api.GenTag.updateCancelled ∧
          t.ctx = some (Api.NewContext.dict [])))) := by
  refine ⟨?_, by decide, ?_, ?_⟩
  · intro msg
    rw [Api.apiIsAffirmative, List.any_eq_true]
    exact exists_congr (fun k => and_congr Iff.rfl (containsSub_iff msg k))
  · intro env st msg ex c hex h1 h2 hA hcs hc
    have hbase := chat_endpoint_delete_path env st msg ex hex h1 h2
    constructor
    · intro haff
      rw [hbase]
      unfold Api.deleteBranch
      rw [hA, haff, hcs, hc]
      refine ⟨_, rfl, ?_⟩
      obtain ⟨ci, cf⟩ := c
      cases ci with
      | order o =>
        by_cases hid : (env.partIdsByOp o.codigo_op).isEmpty
        · simp [Api.deleteCandidateCalls, Api.withExtractApi, hid]
        · simp [Api.deleteCandidateCalls, Api.withExtractApi, hid]
      | part p =>
        simp [Api.deleteCandidateCalls, Api.withExtractApi]
    · intro haff
      rw [hbase]
      unfold Api.deleteBranch
      rw [hA, haff]
      exact ⟨_, rfl, rfl, rfl, rfl⟩
  · intro env st msg ex c hex h1 h2 h3 h4 h5 hA hc
    have hbase := chat_endpoint_update_path env st msg ex hex h1 h2 h3 h4 h5
    constructor
    · intro haff
      rw [hbase]
      unfold Api.updateBranch
      rw [hA, haff, hc]
      refine ⟨_, rfl, ?_⟩
      obtain ⟨ci, cf⟩ := c
      cases ci with
      | order o => simp [Api.withExtractApi]
      | part p => simp [Api.withExtractApi]
    · intro haff
      rw [hbase]
      unfold Api.updateBranch
      rw [hA, haff]
      exact ⟨_, rfl, rfl, rfl, rfl⟩

/-- Witness for C10 at a concrete input: the reply "desista" — a negative
phrasing containing the letter "s" — is classified affirmative while a
delete confirmation is pending, and the pending part deletion is issued. -/
theorem c10_witness :
    Api.apiIsAffirmative "desista" = true ∧
    apiStateAwaitingDelete.awaiting_delete_confirmation = true ∧
    ∃ t, Api.chat_endpoint apiEnvDelete apiStateAwaitingDelete "desista" = some t ∧
      Api.ApiCall.supa (Api.SupaCall.deletePartById partA.id_peca) ∈ t.calls := by
  refine ⟨by decide, rfl, ?_⟩
  exact (c10_endpoint_affirmative_substring.2.2.1 apiEnvDelete apiStateAwaitingDelete
    "desista" exDeleteFlag { item := CandidateItem.part partA }
    rfl rfl rfl rfl rfl rfl).1 (by decide)
